import Mathlib

/-!
# Verification of the worldsim-core specification against its source

A shallow embedding of the `worldsim_core` Python package (resolver, validator,
gravity solver, external-law evaluators, simulation driver) together with
theorems settling the frozen claims about it.

Conventions of the embedding:

* Python floats are modelled as exact arithmetic in an abstract linearly
  ordered field `K` (instantiable at `ℚ` for computation and at `ℝ` for the
  intended reading); `numpy` square roots (`np.power(·, 1.5)`,
  `np.linalg.norm`) are threaded as an explicit function argument `sqrt`.
* JSON numeric literals are modelled as integers (the hashing and resolution
  claims never depend on float formatting).
* `numpy`'s `+inf` sentinel on the self-distance entry makes the subsequent
  reciprocal of the `3/2` power vanish; it is modelled by zeroing the self
  entry of `inv_r3`.
* Python exceptions are modelled with `Except`; each error constructor is
  named after the exception it stands for.
* `hashlib.sha256(...).hexdigest()` is implemented bit-faithfully over byte
  lists (`Nat` words reduced mod `2^32`).
-/

namespace RuleGraph

/-! ## JSON values and canonical serialization (`json.dumps(..., sort_keys=True, separators=(",",":"))`) -/

/-- A JSON value as `json.loads` produces it.  Numeric literals are restricted
to integers (see the file header); objects are association lists with the
unique-key property `json.loads` guarantees for parsed documents. -/
inductive Json where
  | null : Json
  | bool (b : Bool) : Json
  | num (n : Int) : Json
  | str (s : String) : Json
  | arr (items : List Json) : Json
  | obj (fields : List (String × Json)) : Json

/-- The `\uXXXX` escape of a 16-bit code unit, as `json.dumps` emits it
(lowercase hex). -/
def uEscape (n : Nat) : List Char :=
  let hexDigit : Nat → Char := fun d =>
    if d < 10 then Char.ofNat (48 + d) else Char.ofNat (87 + d)
  ['\\', 'u', hexDigit (n / 4096 % 16), hexDigit (n / 256 % 16),
   hexDigit (n / 16 % 16), hexDigit (n % 16)]

/-- Escape one character the way `json.dumps` (with its default
`ensure_ascii=True`) does: the two JSON metacharacters and the short control
escapes get backslash forms, other control characters and all non-ASCII
characters become `\uXXXX` (surrogate pairs above the BMP). -/
def escapeChar (c : Char) : List Char :=
  if c = '"' then ['\\', '"']
  else if c = '\\' then ['\\', '\\']
  else if c = Char.ofNat 10 then ['\\', 'n']
  else if c = Char.ofNat 9 then ['\\', 't']
  else if c = Char.ofNat 13 then ['\\', 'r']
  else if c = Char.ofNat 8 then ['\\', 'b']
  else if c = Char.ofNat 12 then ['\\', 'f']
  else if c.toNat < 32 then uEscape c.toNat
  else if c.toNat < 127 then [c]
  else if c.toNat < 65536 then uEscape c.toNat
  else
    let v := c.toNat - 65536
    uEscape (55296 + v / 1024) ++ uEscape (56320 + v % 1024)

/-- A JSON string literal: quotes around the escaped characters. -/
def quoteStr (s : String) : String :=
  "\"" ++ String.mk (s.data.flatMap escapeChar) ++ "\""

/-- Comma-join, i.e. the item separator of `separators=(",",":")`. -/
def joinComma (parts : List String) : String :=
  String.intercalate "," parts

/-- Lexicographic code-point comparison of character lists — how Python
compares `str` keys. -/
def charsLe : List Char → List Char → Bool
  | [], _ => true
  | _ :: _, [] => false
  | a :: as, b :: bs =>
    if a.toNat < b.toNat then true
    else if b.toNat < a.toNat then false
    else charsLe as bs

/-- `a <= b` on strings by code points. -/
def strLe (a b : String) : Bool := charsLe a.data b.data

/-- Insert one rendered field into a key-sorted list, keeping it sorted. -/
def insertField (kv : String × String) :
    List (String × String) → List (String × String)
  | [] => [kv]
  | kv' :: rest =>
    if strLe kv.1 kv'.1 then kv :: kv' :: rest else kv' :: insertField kv rest

/-- Sort rendered object fields by key — `sort_keys=True`.  Python sorts
`str` keys by code points, which is exactly `String` order; keys are unique
in a parsed object, so any sort realizes it. -/
def sortFields (kvs : List (String × String)) : List (String × String) :=
  kvs.foldr insertField []

mutual
/-- `json.dumps(j, sort_keys=True, separators=(",",":"))`: minimal separators,
keys sorted lexicographically, no insignificant whitespace. -/
def dumps : Json → String
  | .null => "null"
  | .bool true => "true"
  | .bool false => "false"
  | .num n => toString n
  | .str s => quoteStr s
  | .arr items => "[" ++ joinComma (dumpsList items) ++ "]"
  | .obj fields =>
      "\x7b" ++
        joinComma ((sortFields (dumpsFields fields)).map
          (fun kv => quoteStr kv.1 ++ ":" ++ kv.2)) ++
      "\x7d"

/-- Render each element of a JSON array. -/
def dumpsList : List Json → List String
  | [] => []
  | j :: rest => dumps j :: dumpsList rest

/-- Render each value of a JSON object, keeping the key for sorting. -/
def dumpsFields : List (String × Json) → List (String × String)
  | [] => []
  | (k, v) :: rest => (k, dumps v) :: dumpsFields rest
end

/-- UTF-8 bytes of a string (`str.encode()`); the canonical blobs are ASCII
because `ensure_ascii` already escaped everything else, but the encoder is the
real one. -/
def utf8Bytes (s : String) : List Nat :=
  s.data.flatMap fun c =>
    let n := c.toNat
    if n < 128 then [n]
    else if n < 2048 then [192 + n / 64, 128 + n % 64]
    else if n < 65536 then [224 + n / 4096, 128 + n / 64 % 64, 128 + n % 64]
    else [240 + n / 262144, 128 + n / 4096 % 64, 128 + n / 64 % 64, 128 + n % 64]

/-! ## SHA-256 (`hashlib.sha256(blob).hexdigest()`) -/

/-- Truncating 32-bit addition. -/
def add32 (a b : Nat) : Nat := (a + b) % 4294967296

/-- 32-bit right rotation (inputs below `2^32`). -/
def rotr32 (n x : Nat) : Nat :=
  (x >>> n) ||| ((x <<< (32 - n)) % 4294967296)

/-- 32-bit complement. -/
def not32 (x : Nat) : Nat := 4294967295 - x

/-- The 64 SHA-256 round constants. -/
def shaK : List Nat :=
  [1116352408, 1899447441, 3049323471, 3921009573, 961987163, 1508970993,
   2453635748, 2870763221, 3624381080, 310598401, 607225278, 1426881987,
   1925078388, 2162078206, 2614888103, 3248222580, 3835390401, 4022224774,
   264347078, 604807628, 770255983, 1249150122, 1555081692, 1996064986,
   2554220882, 2821834349, 2952996808, 3210313671, 3336571891, 3584528711,
   113926993, 338241895, 666307205, 773529912, 1294757372, 1396182291,
   1695183700, 1986661051, 2177026350, 2456956037, 2730485921, 2820302411,
   3259730800, 3345764771, 3516065817, 3600352804, 4094571909, 275423344,
   430227734, 506948616, 659060556, 883997877, 958139571, 1322822218,
   1537002063, 1747873779, 1955562222, 2024104815, 2227730452, 2361852424,
   2428436474, 2756734187, 3204031479, 3329325298]

/-- The SHA-256 initial hash state. -/
def shaH0 : List Nat :=
  [1779033703, 3144134277, 1013904242, 2773480762,
   1359893119, 2600822924, 528734635, 1541459225]

/-- Group a 64-byte block into sixteen big-endian 32-bit words. -/
def blockWords : List Nat → List Nat
  | b0 :: b1 :: b2 :: b3 :: rest =>
      (((b0 * 256 + b1) * 256 + b2) * 256 + b3) :: blockWords rest
  | _ => []

/-- Extend sixteen message words to the full 64-entry schedule; the fuel
argument counts the 48 remaining entries so the recursion is structural. -/
def extendSchedule (w : Array Nat) : Nat → Array Nat
  | 0 => w
  | fuel + 1 =>
    let t := w.size
    let wm15 := w.getD (t - 15) 0
    let wm2 := w.getD (t - 2) 0
    let s0 := (rotr32 7 wm15) ^^^ (rotr32 18 wm15) ^^^ (wm15 >>> 3)
    let s1 := (rotr32 17 wm2) ^^^ (rotr32 19 wm2) ^^^ (wm2 >>> 10)
    extendSchedule (w.push (add32 (add32 (w.getD (t - 16) 0) s0) (add32 (w.getD (t - 7) 0) s1))) fuel

/-- One SHA-256 round. -/
def shaRound (w : Array Nat) (t : Nat) (st : Nat × Nat × Nat × Nat × Nat × Nat × Nat × Nat) :
    Nat × Nat × Nat × Nat × Nat × Nat × Nat × Nat :=
  let (a, b, c, d, e, f, g, h) := st
  let s1 := (rotr32 6 e) ^^^ (rotr32 11 e) ^^^ (rotr32 25 e)
  let ch := (e &&& f) ^^^ ((not32 e) &&& g)
  let t1 := add32 (add32 (add32 h s1) (add32 ch (shaK.getD t 0))) (w.getD t 0)
  let s0 := (rotr32 2 a) ^^^ (rotr32 13 a) ^^^ (rotr32 22 a)
  let maj := (a &&& b) ^^^ (a &&& c) ^^^ (b &&& c)
  let t2 := add32 s0 maj
  (add32 t1 t2, a, b, c, add32 d t1, e, f, g)

/-- Compress one 64-byte block into the running hash state. -/
def shaCompress (hs : List Nat) (block : List Nat) : List Nat :=
  let w := extendSchedule (Array.mk (blockWords block)) 48
  let init : Nat × Nat × Nat × Nat × Nat × Nat × Nat × Nat :=
    (hs.getD 0 0, hs.getD 1 0, hs.getD 2 0, hs.getD 3 0,
     hs.getD 4 0, hs.getD 5 0, hs.getD 6 0, hs.getD 7 0)
  let (a, b, c, d, e, f, g, h) :=
    (List.range 64).foldl (fun st t => shaRound w t st) init
  [add32 (hs.getD 0 0) a, add32 (hs.getD 1 0) b, add32 (hs.getD 2 0) c,
   add32 (hs.getD 3 0) d, add32 (hs.getD 4 0) e, add32 (hs.getD 5 0) f,
   add32 (hs.getD 6 0) g, add32 (hs.getD 7 0) h]

/-- Big-endian bytes of a value in a fixed number of bytes. -/
def beBytes : Nat → Nat → List Nat
  | 0, _ => []
  | k + 1, v => beBytes k (v / 256) ++ [v % 256]

/-- SHA-256 padding: `0x80`, zeros to 56 mod 64, then the 64-bit bit length. -/
def shaPad (msg : List Nat) : List Nat :=
  let len := msg.length
  let zeros := (119 - len % 64) % 64
  msg ++ [128] ++ List.replicate zeros 0 ++ beBytes 8 (8 * len)

/-- Split into 64-byte blocks (fuel makes the recursion structural; the fuel
is the list length, which bounds the number of blocks). -/
def chunks64Go : Nat → List Nat → List (List Nat)
  | 0, _ => []
  | _, [] => []
  | fuel + 1, b :: rest => ((b :: rest).take 64) :: chunks64Go fuel ((b :: rest).drop 64)

/-- Split into 64-byte blocks. -/
def chunks64 (l : List Nat) : List (List Nat) :=
  chunks64Go l.length l

/-- The SHA-256 digest of a byte list, as eight 32-bit words. -/
def sha256Words (msg : List Nat) : List Nat :=
  (chunks64 (shaPad msg)).foldl shaCompress shaH0

/-- Lowercase hex of one 32-bit word, eight digits. -/
def wordHex (w : Nat) : List Char :=
  let hexDigit : Nat → Char := fun d =>
    if d < 10 then Char.ofNat (48 + d) else Char.ofNat (87 + d)
  [hexDigit (w / 268435456 % 16), hexDigit (w / 16777216 % 16),
   hexDigit (w / 1048576 % 16), hexDigit (w / 65536 % 16),
   hexDigit (w / 4096 % 16), hexDigit (w / 256 % 16),
   hexDigit (w / 16 % 16), hexDigit (w % 16)]

/-- `hashlib.sha256(msg).hexdigest()`: the lowercase-hex digest string. -/
def sha256Hex (msg : List Nat) : String :=
  String.mk ((sha256Words msg).flatMap wordHex)

/-! ## The data model (`models.py`) — card side -/

/-- `models.Parameter`: a scalar with unit and optional one-sigma. -/
structure ParamM where
  value : ℚ
  unit : String
  sigma : Option ℚ
deriving DecidableEq, Repr

/-- `models.LawCard`, plus a ghost field `payload` recording the raw parsed
JSON object the card was constructed from (Python keeps no such attribute,
but at every construction site the payload is the dict passed to
`LawCard(**data)`; the hashing claims are stated through it). -/
structure LawCardM where
  id : String
  version : String
  cardType : String
  title : String
  kind : List String
  equations : List Json
  parameters : List (String × ParamM)
  validity : List (String × Json)
  invariants : List (String × Json)
  stabilityModel : Option Json
  testVectors : Option Json
  provenance : Option Json
  sha256 : Option String
  symbols : Option Json
  numericProfile : Option Json
  payload : Json

/-- First binding of a key in a JSON object's field list (`dict` lookup;
parsed objects have unique keys). -/
def jLookup (fields : List (String × Json)) (k : String) : Option Json :=
  (fields.find? (fun kv => kv.1 = k)).map (fun kv => kv.2)

/-- Read a JSON value as a `str` field. -/
def asStr : Json → Option String
  | .str s => some s
  | _ => none

/-- Read a JSON value as a `float` field (numeric literals only, as pydantic
coerces `int` to `float` and rejects the rest). -/
def asNum : Json → Option ℚ
  | .num n => some (n : ℚ)
  | _ => none

/-- Read a JSON value as an object (`Dict[str, Any]`). -/
def asObj : Json → Option (List (String × Json))
  | .obj fs => some fs
  | _ => none

/-- Parse an optional field of element type `α`: absent and `null` both give
`none`; a present value must parse. -/
def parseOpt (f : Json → Option α) : Option Json → Option (Option α)
  | none => some none
  | some .null => some none
  | some j => (f j).map some

/-- `models.Parameter(**...)`: requires numeric `value` and string `unit`. -/
def paramOfJson (j : Json) : Option ParamM := do
  let fs ← asObj j
  let v ← jLookup fs "value" >>= asNum
  let u ← jLookup fs "unit" >>= asStr
  let s ← parseOpt asNum (jLookup fs "sigma")
  pure ⟨v, u, s⟩

/-- Parse a `Dict[str, Parameter]` field. -/
def paramsOfJson (j : Json) : Option (List (String × ParamM)) := do
  let fs ← asObj j
  fs.mapM fun kv => (paramOfJson kv.2).map (fun p => (kv.1, p))

/-- An `Equation` entry: an object whose four known fields, when present and
non-null, are a string (`name`, `machine`, `tex`) or an object (`ast`). -/
def equationOk (j : Json) : Bool :=
  match asObj j with
  | none => false
  | some fs =>
    (parseOpt asStr (jLookup fs "name")).isSome &&
    (parseOpt asStr (jLookup fs "machine")).isSome &&
    (parseOpt asStr (jLookup fs "tex")).isSome &&
    (parseOpt asObj (jLookup fs "ast")).isSome

/-- A `List[str]` field. -/
def strListOfJson : Json → Option (List String)
  | .arr items => items.mapM asStr
  | _ => none

/-- The `equations` field: a list whose entries all pass `equationOk`. -/
def equationsOfJson : Json → Option (List Json)
  | .arr items => if items.all equationOk then some items else none
  | _ => none

/-- An optional `List[Dict]` field (`testVectors`). -/
def asArrJson : Json → Option Json
  | .arr items => some (.arr items)
  | _ => none

/-- `LawCard(**data)` — pydantic construction.  `none` models a raised
`ValidationError`.  The `type` field must match `^(gw|rg):LawCard$`; extra
keys are ignored (pydantic's default). -/
def lawCardOfJson (data : Json) : Option LawCardM :=
  match asObj data with
  | none => none
  | some fs =>
    match jLookup fs "id" >>= asStr, jLookup fs "version" >>= asStr,
          jLookup fs "type" >>= asStr, jLookup fs "title" >>= asStr with
    | some cid, some ver, some ty, some title =>
      if ty = "gw:LawCard" ∨ ty = "rg:LawCard" then
        match jLookup fs "kind" >>= strListOfJson,
              jLookup fs "equations" >>= equationsOfJson,
              jLookup fs "parameters" >>= paramsOfJson,
              jLookup fs "validity" >>= asObj,
              jLookup fs "invariants" >>= asObj with
        | some kind, some eqs, some ps, some va, some inv =>
          match parseOpt asObj (jLookup fs "stabilityModel"),
                parseOpt asArrJson (jLookup fs "testVectors"),
                parseOpt asObj (jLookup fs "provenance"),
                parseOpt asStr (jLookup fs "sha256") with
          | some stab, some tv, some prov, some sha =>
            match parseOpt asObj (jLookup fs "symbols"),
                  parseOpt asObj (jLookup fs "numericProfile") with
            | some sym, some np =>
              some ⟨cid, ver, ty, title, kind, eqs, ps, va, inv,
                    stab.map Json.obj, tv, prov.map Json.obj, sha,
                    sym.map Json.obj, np.map Json.obj, data⟩
            | _, _ => none
          | _, _, _, _ => none
        | _, _, _, _, _ => none
      else none
    | _, _, _, _ => none

/-! ## The card resolver (`resolver.py`) -/

/-- Python truthiness of `card.sha256` (`Optional[str]`): `None` and the
empty string are falsy. -/
def shaTruthy : Option String → Bool
  | none => false
  | some s => !s.isEmpty

/-- `_canonical_sha256`: drop the `sha256` key from a copy of the payload,
serialize canonically, hash. -/
def canonicalSha256 (payload : Json) : String :=
  let toHash := match payload with
    | .obj fs => Json.obj (fs.filter (fun kv => kv.1 ≠ "sha256"))
    | other => other
  sha256Hex (utf8Bytes (dumps toHash))

/-- The resolver's error values, one constructor per Python exception the
source can raise; message-bearing constructors keep the pieces the f-string
interpolates. -/
inductive ResolveErr where
  | jsonDecodeErr (path : String) : ResolveErr
  | validationErr (path : String) : ResolveErr
  | shaMismatch (path expected computed : String) : ResolveErr
  | attrErr (path : String) : ResolveErr
  | osErr (path : String) : ResolveErr
  | refNotFound (message : String) : ResolveErr
deriving DecidableEq, Repr

/-- The resolver's view of the world outside the function: the parsed content
of every existing file (`none` = text `json.loads` rejects), the id→path
index assembled from `RULEGRAPH_CARD_PATHS` index files, and the recursive
`*.json` scan of the search directories, flattened in directory order.
`_gather_search_space`, being environment and filesystem I/O, is abstracted
to this, its result. -/
structure ResolveEnv where
  files : List (String × Option Json)
  index : List (String × String)
  scan : List String

/-- Look a path up in the modelled filesystem (`Path.exists` + read). -/
def envRead (env : ResolveEnv) (p : String) : Option (Option Json) :=
  (env.files.find? (fun kv => kv.1 = p)).map (fun kv => kv.2)

/-- `_load_lawcard_from_path(path, verify_hash)`: read, parse, construct the
card, and, when `verify_hash` is set and the declared `sha256` is truthy,
compare it with the canonical hash. -/
def loadLawcardFromPath (env : ResolveEnv) (p : String) (verifyHash : Bool) :
    Except ResolveErr LawCardM :=
  match envRead env p with
  | none => .error (.osErr p)
  | some none => .error (.jsonDecodeErr p)
  | some (some data) =>
    match lawCardOfJson data with
    | none => .error (.validationErr p)
    | some card =>
      if verifyHash && shaTruthy card.sha256 then
        if canonicalSha256 data = card.sha256.getD "" then .ok card
        else .error (.shaMismatch p (card.sha256.getD "") (canonicalSha256 data))
      else .ok card

/-- The scan loop of `_resolve_iri_to_path` (its step 1): walk the candidate
files in order, remembering the most recent exception in `last_error`; a
candidate is selected when it parses, its `id` equals the ref, and it loads
and verifies; at the end the remembered error, if any, is re-raised,
otherwise the scan reports no match. -/
def scanForRef (env : ResolveEnv) (ref : String) :
    List String → Option ResolveErr → Except ResolveErr (Option String)
  | [], none => .ok none
  | [], some e => .error e
  | p :: rest, lastError =>
    match envRead env p with
    | none => scanForRef env ref rest (some (.osErr p))
    | some none => scanForRef env ref rest (some (.jsonDecodeErr p))
    | some (some data) =>
      match data with
      | .obj fs =>
        match jLookup fs "id" with
        | some (.str s) =>
          if s = ref then
            match loadLawcardFromPath env p true with
            | .ok _ => .ok (some p)
            | .error e => scanForRef env ref rest (some e)
          else scanForRef env ref rest lastError
        | _ => scanForRef env ref rest lastError
      | _ => scanForRef env ref rest (some (.attrErr p))

/-- `_resolve_iri_to_path(ref)`: the index mapping wins immediately when its
target exists and loads with a verified hash; otherwise the directories are
scanned. -/
def resolveIriToPath (env : ResolveEnv) (ref : String) :
    Except ResolveErr (Option String) :=
  match (env.index.find? (fun kv => kv.1 = ref)).map (fun kv => kv.2) with
  | some p =>
    if (envRead env p).isSome then
      match loadLawcardFromPath env p true with
      | .ok _ => .ok (some p)
      | .error _ => scanForRef env ref env.scan none
    else scanForRef env ref env.scan none
  | none => scanForRef env ref env.scan none

/-- The not-found message of `resolve_cards`. -/
def cannotResolveMsg (ref : String) : String :=
  "Cannot resolve LawCard ref '" ++ ref ++
    "'. Provide a local path or set RULEGRAPH_CARD_PATHS."

/-- `out[card.id] = card` on an insertion-ordered dict: replace in place if
the key is present, else append. -/
def dictInsert (out : List (String × LawCardM)) (k : String) (v : LawCardM) :
    List (String × LawCardM) :=
  if out.any (fun kv => kv.1 = k) then
    out.map (fun kv => if kv.1 = k then (k, v) else kv)
  else out ++ [(k, v)]

/-- The loop body of `resolve_cards` for one ref: load directly when the ref
is an existing path (hash verified, mismatch fatal), otherwise resolve as an
IRI; key the result by the card's declared `id`. -/
def resolveStep (env : ResolveEnv) (out : List (String × LawCardM))
    (ref : String) : Except ResolveErr (List (String × LawCardM)) := do
  let card ←
    if (envRead env ref).isSome then
      loadLawcardFromPath env ref true
    else
      match resolveIriToPath env ref with
      | .error e => .error e
      | .ok none => .error (.refNotFound (cannotResolveMsg ref))
      | .ok (some p2) => loadLawcardFromPath env p2 true
  pure (dictInsert out card.id card)

/-- `resolve_cards(law_refs)`. -/
def resolveCards (env : ResolveEnv) (lawRefs : List String) :
    Except ResolveErr (List (String × LawCardM)) :=
  lawRefs.foldlM (resolveStep env) []

/-! ## Numeric model

Python floats become exact arithmetic in an abstract linearly ordered field
`K`; `numpy`'s square root is threaded explicitly (`np.power(x, 1.5)` is read
as `sqrt (x^3)`).  Instantiating `K := ℚ` with any concrete `sqrt` stand-in
makes every definition below executable; `K := ℝ` with `Real.sqrt` is the
exact-real reading. -/

/-- A numpy row of shape `(3,)`. -/
structure V3 (K : Type) where
  x : K
  y : K
  z : K
deriving DecidableEq, Repr

instance {K : Type} [Add K] : Add (V3 K) :=
  ⟨fun a b => ⟨a.x + b.x, a.y + b.y, a.z + b.z⟩⟩

instance {K : Type} [Sub K] : Sub (V3 K) :=
  ⟨fun a b => ⟨a.x - b.x, a.y - b.y, a.z - b.z⟩⟩

instance {K : Type} [Zero K] : Zero (V3 K) := ⟨⟨0, 0, 0⟩⟩

instance {K : Type} [Mul K] : SMul K (V3 K) :=
  ⟨fun a v => ⟨a * v.x, a * v.y, a * v.z⟩⟩

section Physics

variable {K : Type} [LinearOrderedField K]

/-- Row dot product (`np.sum(dr * dr, axis=1)` and friends). -/
def dotV (a b : V3 K) : K := a.x * b.x + a.y * b.y + a.z * b.z

/-- `np.cross` of two rows. -/
def crossV (a b : V3 K) : V3 K :=
  ⟨a.y * b.z - a.z * b.y, a.z * b.x - a.x * b.z, a.x * b.y - a.y * b.x⟩

/-- Componentwise sum of `n` rows (`.sum(axis=0)`). -/
def sumV (n : Nat) (f : Nat → V3 K) : V3 K :=
  ⟨∑ i in Finset.range n, (f i).x,
   ∑ i in Finset.range n, (f i).y,
   ∑ i in Finset.range n, (f i).z⟩

/-! ## The data model (`models.py`) — world side -/

/-- `models.Quantity` (its `value` used as a float). -/
structure QuantityM (K : Type) where
  value : K
  unit : String
  sigma : Option ℚ
deriving DecidableEq, Repr

/-- `models.Vec3Quantity`. -/
structure Vec3Q (K : Type) where
  value : V3 K
  unit : String
  sigma : Option ℚ
deriving DecidableEq, Repr

/-- `models.State` of a body. -/
structure StateB (K : Type) where
  frame : String
  t : String
  position : Vec3Q K
  velocity : Vec3Q K
deriving DecidableEq, Repr

/-- `models.Body` (its `type` field is the constant literal `"rg:Body"`). -/
structure BodyM (K : Type) where
  id : String
  mass : QuantityM K
  state : StateB K
deriving DecidableEq, Repr

/-- `models.Frame` (constant `type` literal omitted). -/
structure FrameM where
  id : String
  metric : String
  units : List (String × String)
deriving DecidableEq, Repr

/-- `models.World.Selector`. -/
structure SelectorM where
  bodies : Option (List String)
  pairs : Option (List (String × String))
deriving DecidableEq, Repr

/-- `models.World.Dynamic`; override values are the numbers `float(...)`
accepts. -/
structure DynamicM where
  ref : String
  selector : Option SelectorM
  override : Option (List (String × ℚ))
deriving DecidableEq, Repr

/-- The `config` map with its two recognized keys (`None` field = key
absent). -/
structure ConfigM (K : Type) where
  dtSeconds : Option K
  steps : Option Int
deriving DecidableEq, Repr

/-- `models.World`. -/
structure WorldM (K : Type) where
  id : String
  version : String
  frames : List FrameM
  entities : List (BodyM K)
  dynamics : List DynamicM
  solvers : Option (List (String × String))
  config : Option (ConfigM K)
deriving DecidableEq, Repr

/-- `_config_dt`: `config["dtSeconds"]`, defaulting to `60.0`. -/
def configDt (w : WorldM K) : K :=
  match w.config with
  | none => 60
  | some c => match c.dtSeconds with
    | some d => d
    | none => 60

/-- `_config_steps`: `int(config["steps"])`, defaulting to `0`. -/
def configSteps (w : WorldM K) : Int :=
  match w.config with
  | none => 0
  | some c => match c.steps with
    | some s => s
    | none => 0

/-! ## The gravity solver (`solvers/verlet.py`) -/

/-- The constructor state of `VerletNBodySolver`. -/
structure SolverCfg (K : Type) where
  softening : K
  vectorized : Bool
  vectorizeThreshold : Int
  maxVectorizedBytes : Int

/-- The default `VerletNBodySolver()` construction. -/
def defaultSolverCfg : SolverCfg K :=
  ⟨0, true, 64, 256000000⟩

/-- `_accels_loop`: per-body kernel.  For each `i`: differences `dr`, squared
distances plus `eps2`, the self entry sent to `+inf` before the reciprocal
`-3/2` power (modelled as a zero reciprocal), then the mass-weighted sum. -/
def accelsLoop (sqrt : K → K) (G : K) (n : Nat) (m : Nat → K) (r : Nat → V3 K)
    (eps2 : K) : Nat → V3 K :=
  fun i =>
    let dr : Nat → V3 K := fun j => r i - r j
    let dist2 : Nat → K := fun j => dotV (dr j) (dr j) + eps2
    let invR3 : Nat → K := fun j => if j = i then 0 else 1 / sqrt ((dist2 j) ^ 3)
    (-G) • sumV n (fun j => (m j * invR3 j) • dr j)

/-- `_accels_vectorized`: dense pairwise kernel.  The `(N,N,3)` difference
tensor, the `(N,N)` squared-distance matrix with `eps2` added and the
diagonal filled with `+inf` before the reciprocal `-3/2` power, reduced by
summing over `j`. -/
def accelsVectorized (sqrt : K → K) (G : K) (n : Nat) (m : Nat → K)
    (r : Nat → V3 K) (eps2 : K) : Nat → V3 K :=
  let diff : Nat → Nat → V3 K := fun i j => r i - r j
  let dist2 : Nat → Nat → K := fun i j => dotV (diff i j) (diff i j) + eps2
  let invR3 : Nat → Nat → K := fun i j =>
    if i = j then 0 else 1 / sqrt ((dist2 i j) ^ 3)
  fun i => (-G) • sumV n (fun j => (m j * invR3 i j) • diff i j)

/-- `_should_vectorize`. -/
def shouldVectorize (s : SolverCfg K) (n : Nat) : Bool :=
  if !s.vectorized || (n : Int) < s.vectorizeThreshold then false
  else decide (48 * (n : Int) ^ 2 < s.maxVectorizedBytes)

/-- A state dict `{"t", "r", "v", "m"}`. -/
structure SimState (K : Type) where
  t : K
  r : Nat → V3 K
  v : Nat → V3 K
  m : Nat → K

/-- `_take_step`: standalone velocity-Verlet for gravity only. -/
def takeStep (sqrt : K → K) (G : K) (n : Nat) (m : Nat → K) (r v : Nat → V3 K)
    (dtSeconds : K) (eps2 : K) (vectorized : Bool) :
    (Nat → V3 K) × (Nat → V3 K) :=
  let a := if vectorized then accelsVectorized sqrt G n m r eps2
           else accelsLoop sqrt G n m r eps2
  let vHalf := fun i => v i + ((1 : K) / 2 * dtSeconds) • a i
  let rNew := fun i => r i + dtSeconds • vHalf i
  let aNew := if vectorized then accelsVectorized sqrt G n m rNew eps2
              else accelsLoop sqrt G n m rNew eps2
  let vNew := fun i => vHalf i + ((1 : K) / 2 * dtSeconds) • aNew i
  (rNew, vNew)

/-- First binding of a parameter name on a card, its `value`
(`card.parameters[name].value` when present). -/
def lookupParam (card : LawCardM) (name : String) : Option ℚ :=
  (card.parameters.find? (fun kv => kv.1 = name)).map (fun kv => kv.2.value)

/-- The driver-side error values, one constructor per Python exception. -/
inductive SimErr where
  | keyErr (k : String) : SimErr
  | noSolver (lawId : String) : SimErr
  | attrNone : SimErr
  | idxErr : SimErr
  | nameErr : SimErr
  | typeErr : SimErr
deriving DecidableEq, Repr

/-- `VerletNBodySolver.step(state, lawcard, dt_seconds)`; reading `G` from
the card raises `KeyError` when absent. -/
def solverStep (cfg : SolverCfg K) (sqrt : K → K) (n : Nat) (st : SimState K)
    (lawcard : LawCardM) (dtSeconds : K) : Except SimErr (SimState K) :=
  match lookupParam lawcard "G" with
  | none => .error (.keyErr "G")
  | some g =>
    let eps2 := cfg.softening ^ 2
    let vectorized := shouldVectorize cfg n
    let rv := takeStep sqrt (g : K) n st.m st.r st.v dtSeconds eps2 vectorized
    .ok ⟨st.t + dtSeconds, rv.1, rv.2, st.m⟩

/-- Modelled from the spec: the public `accelerations(state, card)` operation
of `VerletNBodySolver` is absent from `src/` (the snapshot's `verlet.py` has
only the private kernels, `_should_vectorize`, `_take_step` and `step`, and
the `solvers` package re-export is missing too), while `simulate` calls it at
two sites.  Per §4.3 it is a pure function of the positions and masses in the
state: it selects the kernel by the stated rule and applies it with the
card's `G` (0 when absent, per the §7 error table: "integrator is still
evaluated") and the solver's `eps²`. -/
def accelerations (cfg : SolverCfg K) (sqrt : K → K) (card : LawCardM)
    (n : Nat) (r : Nat → V3 K) (m : Nat → K) : Nat → V3 K :=
  let g : K := ((lookupParam card "G").getD 0 : ℚ)
  let eps2 := cfg.softening ^ 2
  if shouldVectorize cfg n then accelsVectorized sqrt g n m r eps2
  else accelsLoop sqrt g n m r eps2

/-! ## Invariant accounting (`invariants.py`) -/

/-- `kinetic_energy`: `0.5 * sum(m * sum(v*v, axis=1))`. -/
def kineticEnergy (n : Nat) (m : Nat → K) (v : Nat → V3 K) : K :=
  (1 : K) / 2 * ∑ i in Finset.range n, m i * dotV (v i) (v i)

/-- `potential_energy`: for each `i`, subtract
`G * m[i] * sum(m[i+1:] / dist)` with plain Euclidean distances (no
softening). -/
def potentialEnergy (sqrt : K → K) (G : K) (n : Nat) (m : Nat → K)
    (r : Nat → V3 K) : K :=
  -∑ i in Finset.range n,
    G * m i * ∑ j in Finset.Ico (i + 1) n,
      m j / sqrt (dotV (r j - r i) (r j - r i))

/-- `linear_momentum`: `(m[:,None] * v).sum(axis=0)`. -/
def linearMomentumV (n : Nat) (m : Nat → K) (v : Nat → V3 K) : V3 K :=
  sumV n (fun i => m i • v i)

/-- `angular_momentum`: `np.cross(r, m[:,None] * v).sum(axis=0)`. -/
def angularMomentumV (n : Nat) (m : Nat → K) (r v : Nat → V3 K) : V3 K :=
  sumV n (fun i => crossV (r i) (m i • v i))

/-- The dict `audit_invariants` returns. -/
structure InvMap (K : Type) where
  energy : K
  linearMomentum : V3 K
  angularMomentum : V3 K

/-- `audit_invariants(G, m, r, v)`. -/
def auditInvariants (sqrt : K → K) (G : K) (n : Nat) (m : Nat → K)
    (r v : Nat → V3 K) : InvMap K :=
  ⟨kineticEnergy n m v + potentialEnergy sqrt G n m r,
   linearMomentumV n m v,
   angularMomentumV n m r v⟩

/-- `rel_drift` at scalar arguments: `_norm` is `abs`, and the result is
`abs((norm(current) - norm(baseline)) / norm(baseline))`, or `norm(current)`
when the baseline norm is zero. -/
def relDriftScalar (current baseline : K) : K :=
  let denom := |baseline|
  if denom = 0 then |current|
  else |(|current| - denom) / denom|

/-- `rel_drift` at 3-vector arguments: `_norm` is the Euclidean norm. -/
def relDriftVec (sqrt : K → K) (current baseline : V3 K) : K :=
  let denom := sqrt (dotV baseline baseline)
  if denom = 0 then sqrt (dotV current current)
  else |(sqrt (dotV current current) - denom) / denom|

/-! ## The simulation driver (`simulate.py`) -/

/-- The gravity law IRI the default registry and the driver recognize. -/
def gravityId : String := "rg:law/physics.gravity.newton.v1"

def dragLinearId : String := "rg:law/fluids.drag.linear.v1"

def dragQuadId : String := "rg:law/fluids.drag.quadratic.v1"

/-- `DEFAULT_REGISTRY`. -/
def defaultRegistry : List (String × SolverCfg K) :=
  [(gravityId, defaultSolverCfg)]

/-- `index_by_id = {e.id: i for i, e in enumerate(world.entities)}` — a dict
comprehension, so a later entity with a duplicate id wins. -/
def indexById (entities : List (BodyM K)) : String → Option Nat :=
  entities.enum.foldl
    (fun acc ie => fun s => if s = ie.2.id then some ie.1 else acc s)
    (fun _ => none)

/-- `mask[j] = True`. -/
def setMask (mk : Nat → Bool) (j : Nat) : Nat → Bool :=
  fun i => if i = j then true else mk i

/-- `mask.any()` over the `n` entries. -/
def maskAny (mk : Nat → Bool) (n : Nat) : Bool :=
  (List.range n).any mk

/-- The `if bodies:` loop of `_mask_from_selector`: set the index of every
known explicit body id. -/
def maskBodies (idx : String → Option Nat) (bodies : Option (List String))
    (mk : Nat → Bool) : Nat → Bool :=
  match bodies with
  | none => mk
  | some bs => bs.foldl
      (fun mk bid => match idx bid with
        | some j => setMask mk j
        | none => mk) mk

/-- The `if pairs:` loop of `_mask_from_selector`: set both endpoints of every
pair, unknown ids contributing nothing. -/
def maskPairs (idx : String → Option Nat)
    (pairs : Option (List (String × String))) (mk : Nat → Bool) : Nat → Bool :=
  match pairs with
  | none => mk
  | some ps => ps.foldl
      (fun mk ab =>
        let mkA := match idx ab.1 with
          | some ia => setMask mk ia
          | none => mk
        match idx ab.2 with
        | some ib => setMask mkA ib
        | none => mkA) mk

/-- `_mask_from_selector(sel, n)`: start all-false; absent selector selects
everything; otherwise run the bodies loop then the pairs loop; if nothing was
set, select everything. -/
def maskFromSelector (idx : String → Option Nat) (sel : Option SelectorM)
    (n : Nat) : Nat → Bool :=
  match sel with
  | none => fun _ => true
  | some s =>
    let m2 := maskPairs idx s.pairs (maskBodies idx s.bodies (fun _ => false))
    if maskAny m2 n then m2 else fun _ => true

/-- `_param(d, name, default)`: the dynamic's override when present, else the
supplied default. -/
def paramOverride (d : DynamicM) (name : String) (deflt : K) : K :=
  match d.override with
  | none => deflt
  | some ov => match (ov.find? (fun kv => kv.1 = name)).map (fun kv => kv.2) with
    | some q => (q : K)
    | none => deflt

/-- `cards.get(ref) or next((c for c in cards.values() if c.id == ref), None)`. -/
def cardByRef (cards : List (String × LawCardM)) (ref : String) :
    Option LawCardM :=
  match (cards.find? (fun kv => kv.1 = ref)).map (fun kv => kv.2) with
  | some c => some c
  | none => (cards.find? (fun kv => kv.2.id = ref)).map (fun kv => kv.2)

/-- One dynamic's contribution inside `_external_accels` (the loop body):
zero for the gravity law and for unknown cards; the masked drag formulas
otherwise.  Reading a missing card parameter raises `KeyError` (the default
argument of `_param` is evaluated eagerly). -/
def externalContrib (sqrt : K → K) (lawId : String)
    (cards : List (String × LawCardM)) (idx : String → Option Nat) (n : Nat)
    (m : Nat → K) (d : DynamicM) (vNow : Nat → V3 K) :
    Except SimErr (Nat → V3 K) :=
  if d.ref = lawId then .ok (fun _ => 0)
  else
    match cardByRef cards d.ref with
    | none => .ok (fun _ => 0)
    | some card =>
      let mask := maskFromSelector idx d.selector n
      if card.id = dragLinearId then
        match lookupParam card "gamma" with
        | none => .error (.keyErr "gamma")
        | some g0 =>
          let gamma := paramOverride d "gamma" ((g0 : ℚ) : K)
          .ok (fun i => if mask i then (-gamma * (1 / m i)) • vNow i else 0)
      else if card.id = dragQuadId then
        match lookupParam card "Cq" with
        | none => .error (.keyErr "Cq")
        | some c0 =>
          let cq := paramOverride d "Cq" ((c0 : ℚ) : K)
          .ok (fun i => if mask i then
                (-cq * (1 / m i)) • (sqrt (dotV (vNow i) (vNow i)) • vNow i)
              else 0)
      else .ok (fun _ => 0)

/-- `_external_accels(v_now)`: start from zeros and accumulate the dynamics'
contributions in the order they appear in the world. -/
def externalAccels (sqrt : K → K) (lawId : String)
    (cards : List (String × LawCardM)) (idx : String → Option Nat) (n : Nat)
    (m : Nat → K) (dyns : List DynamicM) (vNow : Nat → V3 K) :
    Except SimErr (Nat → V3 K) :=
  dyns.foldlM
    (fun acc d =>
      (externalContrib sqrt lawId cards idx n m d vNow).map
        (fun c => fun i => acc i + c i))
    (fun _ => (0 : V3 K))

/-- One budget: `float(budgets.get(name, {}).get("rel", 1.0))` on
`law.invariants.get("driftBudget", {})`.  Attribute access on a non-dict and
`float` of a non-number raise; `float` of a numeric string (which Python
would accept) is modelled as the same error, a divergence only for cards no
fixture exercises. -/
def budgetRel (inv : List (String × Json)) (name : String) : Except SimErr K :=
  let budgets := (jLookup inv "driftBudget").getD (.obj [])
  match budgets with
  | .obj bs =>
    let entry := (jLookup bs name).getD (.obj [])
    match entry with
    | .obj es =>
      let rel := (jLookup es "rel").getD (.num 1)
      match rel with
      | .num q => .ok ((q : ℚ) : K)
      | .bool b => .ok (if b then 1 else 0)
      | _ => .error .typeErr
    | _ => .error .attrNone
  | _ => .error .attrNone

/-- The audit-cadence test `(i + 1) % 100 == 0 or i + 1 == steps`, stated of
the 1-based step number `k = i + 1`. -/
def auditDue (steps k : Nat) : Bool :=
  (k % 100 == 0) || (k == steps)

/-- Lines 168–175: the conditional drifts (an invariant's drift is computed
only when its budget is enabled, `rel < 1.0`) and the gross-violation test
with the fixed `gross_factor = 10.0`. -/
def grossCheck (sqrt : K → K) (budE budP budL : K) (inv0 inv : InvMap K) :
    Bool :=
  let grossFactor : K := 10
  let dE := if budE < 1 then relDriftScalar inv.energy inv0.energy else 0
  let dP := if budP < 1 then
      relDriftVec sqrt inv.linearMomentum inv0.linearMomentum else 0
  let dL := if budL < 1 then
      relDriftVec sqrt inv.angularMomentum inv0.angularMomentum else 0
  decide (budE < 1 ∧ dE > grossFactor * budE) ||
  decide (budP < 1 ∧ dP > grossFactor * budP) ||
  decide (budL < 1 ∧ dL > grossFactor * budL)

/-- Everything `simulate` fixes before its loop (the closure context of the
loop body).  `m0` is the closed-over mass array `_external_accels` and the
audits read. -/
structure SimCtx (K : Type) where
  sqrt : K → K
  cfg : SolverCfg K
  law : LawCardM
  cards : List (String × LawCardM)
  idx : String → Option Nat
  n : Nat
  dyns : List DynamicM
  m0 : Nat → K
  G : K
  inv0 : InvMap K
  budE : K
  budP : K
  budL : K
  steps : Nat
  dt : K

/-- The body of the integration loop (lines 151–164): opening half-kick from
gravity at the current positions plus external accelerations at the current
velocity, drift, closing half-kick from gravity at the new positions plus
external accelerations at the half-step velocity. -/
def stepOnceE (c : SimCtx K) (st : SimState K) : Except SimErr (SimState K) :=
  let aG := accelerations c.cfg c.sqrt c.law c.n st.r st.m
  match externalAccels c.sqrt c.law.id c.cards c.idx c.n c.m0 c.dyns st.v with
  | .error e => .error e
  | .ok aE =>
    let a1 := fun i => aG i + aE i
    let vHalf := fun i => st.v i + ((1 : K) / 2 * c.dt) • a1 i
    let rNew := fun i => st.r i + c.dt • vHalf i
    let aG2 := accelerations c.cfg c.sqrt c.law c.n rNew st.m
    match externalAccels c.sqrt c.law.id c.cards c.idx c.n c.m0 c.dyns vHalf with
    | .error e => .error e
    | .ok aE2 =>
      let vNew := fun i => vHalf i + ((1 : K) / 2 * c.dt) • (aG2 i + aE2 i)
      .ok ⟨st.t + c.dt, rNew, vNew, st.m⟩

/-- `for i in range(steps)` with the audit-and-abort check: `fuel` counts the
remaining iterations (initially `steps`), `i` is the loop variable, and the
`Option Nat` accumulator carries `i + 1` of the last executed iteration —
`none` when the body never ran, which is where the Python `i` would be
unbound. -/
def simLoop (c : SimCtx K) :
    Nat → Nat → SimState K → Option Nat →
    Except SimErr (SimState K × Option Nat)
  | 0, _, st, lastI => .ok (st, lastI)
  | fuel + 1, i, st, _ =>
    match stepOnceE c st with
    | .error e => .error e
    | .ok st' =>
      if auditDue c.steps (i + 1) then
        if grossCheck c.sqrt c.budE c.budP c.budL c.inv0
            (auditInvariants c.sqrt c.G c.n c.m0 st'.r st'.v) then
          .ok (st', some (i + 1))
        else simLoop c fuel (i + 1) st' (some (i + 1))
      else simLoop c fuel (i + 1) st' (some (i + 1))

/-- `_world_to_arrays`: the flat `m`, `r`, `v` arrays in registration
order. -/
def worldToArrays (w : WorldM K) : (Nat → K) × (Nat → V3 K) × (Nat → V3 K) :=
  (fun i => ((w.entities[i]?).map (fun e => e.mass.value)).getD 0,
   fun i => ((w.entities[i]?).map (fun e => e.state.position.value)).getD 0,
   fun i => ((w.entities[i]?).map (fun e => e.state.velocity.value)).getD 0)

/-- `_arrays_to_world`: write row `i` of `r` and `v` into body `i`'s position
and velocity values; nothing else is touched. -/
def arraysToWorld (w : WorldM K) (r v : Nat → V3 K) : WorldM K :=
  { w with entities := w.entities.enum.map (fun ie =>
      { ie.2 with state := { ie.2.state with
          position := { ie.2.state.position with value := r ie.1 },
          velocity := { ie.2.state.velocity with value := v ie.1 } } }) }

/-- `RunResult.drifts`. -/
structure DriftsM (K : Type) where
  energy : K
  linearMomentum : K
  angularMomentum : K

/-- `RunResult`. -/
structure RunResultM (K : Type) where
  steps : Nat
  dtSeconds : K
  finalState : SimState K
  initialInvariants : InvMap K
  finalInvariants : InvMap K
  drifts : DriftsM K

/-- The tail of `simPrep` once the law ref is selected: card and solver
lookup, budget extraction, then the context and the step-zero state. -/
def simPrepRest (w : WorldM K) (sqrt : K → K)
    (cards : List (String × LawCardM))
    (registry : List (String × SolverCfg K)) (lawRef : String) :
    Except SimErr (SimCtx K × SimState K) :=
  match cardByRef cards lawRef with
  | none => .error .attrNone
  | some law =>
    match (registry.find? (fun kv => kv.1 = law.id)).map (fun kv => kv.2) with
    | none => .error (.noSolver law.id)
    | some cfg =>
      match budgetRel (K := K) law.invariants "Energy",
            budgetRel (K := K) law.invariants "LinearMomentum",
            budgetRel (K := K) law.invariants "AngularMomentum" with
      | .ok budE, .ok budP, .ok budL =>
        let arrays := worldToArrays w
        let m := arrays.1
        let r := arrays.2.1
        let v := arrays.2.2
        let n := w.entities.length
        let G : K := match lookupParam law "G" with
          | some q => ((q : ℚ) : K)
          | none => 0
        .ok (⟨sqrt, cfg, law, cards, indexById w.entities, n, w.dynamics, m, G,
              auditInvariants sqrt G n m r v, budE, budP, budL,
              (configSteps w).toNat, configDt w⟩,
             ⟨0, r, v, m⟩)
      | .error e, _, _ => .error e
      | _, .error e, _ => .error e
      | _, _, .error e => .error e

/-- Lines 60–149 of `simulate`: gravity-dynamic selection (first dynamic with
the Newtonian-gravity ref, else the first dynamic), card and solver lookup,
array materialization, `G` (0 when absent), step-zero invariants, budgets
(default 1.0), steps and dt.  The unused `has_dissipative` binding of the
source (it can raise nothing) is dropped. -/
def simPrep (w : WorldM K) (sqrt : K → K) (cards : List (String × LawCardM))
    (registry : List (String × SolverCfg K)) :
    Except SimErr (SimCtx K × SimState K) :=
  match (w.dynamics.find? (fun d => d.ref = gravityId)).map (fun d => d.ref) with
  | some rf => simPrepRest w sqrt cards registry rf
  | none =>
    match w.dynamics with
    | [] => .error .idxErr
    | d0 :: _ => simPrepRest w sqrt cards registry d0.ref

/-- `simulate(world, cards, registry)`.  The first component is the world as
the call leaves it (bodies overwritten by `_arrays_to_world` exactly when
control reaches line 180); the second is the returned `RunResult` or the
exception.  A `none` loop index at line 183 is Python's unbound `i`
(`NameError`). -/
def simulate (w : WorldM K) (sqrt : K → K) (cards : List (String × LawCardM))
    (registry : Option (List (String × SolverCfg K))) :
    WorldM K × Except SimErr (RunResultM K) :=
  match simPrep w sqrt cards (registry.getD defaultRegistry) with
  | .error e => (w, .error e)
  | .ok (c, st0) =>
    match simLoop c c.steps 0 st0 none with
    | .error e => (w, .error e)
    | .ok (stF, lastI) =>
      let invN := auditInvariants c.sqrt c.G c.n c.m0 stF.r stF.v
      let w2 := arraysToWorld w stF.r stF.v
      match lastI with
      | none => (w2, .error .nameErr)
      | some k =>
        (w2, .ok ⟨k, c.dt, stF, c.inv0, invN,
          ⟨relDriftScalar invN.energy c.inv0.energy,
           relDriftVec c.sqrt invN.linearMomentum c.inv0.linearMomentum,
           relDriftVec c.sqrt invN.angularMomentum c.inv0.angularMomentum⟩⟩)

/-- Spec-side characterization for the selector claim: the union of the
explicitly named bodies and the endpoints of the pair entries, resolved
through the body index (unknown ids contributing nothing), as a list of
body indices in selector order. -/
def selUnion (idx : String → Option Nat) (sel : Option SelectorM) : List Nat :=
  match sel with
  | none => []
  | some s =>
    ((s.bodies.getD []).filterMap idx) ++
      ((s.pairs.getD []).flatMap (fun ab => (idx ab.1).toList ++ (idx ab.2).toList))

end Physics

section DriverObservables

variable {K : Type} [LinearOrderedField K]

/-- Total wrapper of the loop body: the next state on success, the unchanged
state on a (param-lookup) exception.  Under `paramsOk` the exception case is
unreachable. -/
def stepPure (c : SimCtx K) (st : SimState K) : SimState K :=
  match stepOnceE c st with
  | .ok s => s
  | .error _ => st

/-- Every non-gravity dynamic that resolves to a known drag card carries the
parameter whose eager default lookup `_external_accels` performs — the
decidable condition under which the loop body cannot raise. -/
def paramsOk (c : SimCtx K) : Bool :=
  c.dyns.all fun d =>
    if d.ref = c.law.id then true
    else match cardByRef c.cards d.ref with
      | none => true
      | some card =>
        if card.id = dragLinearId then (lookupParam card "gamma").isSome
        else if card.id = dragQuadId then (lookupParam card "Cq").isSome
        else true

/-- Spec-side observable: step `k` (1-based) is an audit point whose
recomputed invariants violate some enabled budget grossly, measured against
the context's step-zero invariants. -/
def hitAt (c : SimCtx K) (st0 : SimState K) (k : Nat) : Bool :=
  auditDue c.steps k &&
    grossCheck c.sqrt c.budE c.budP c.budL c.inv0
      (auditInvariants c.sqrt c.G c.n c.m0
        ((stepPure c)^[k] st0).r ((stepPure c)^[k] st0).v)

/-- The number of loop iterations the audit-and-abort policy executes,
starting after iteration `i` with `fuel` iterations remaining. -/
def runLenGo (c : SimCtx K) (st0 : SimState K) : Nat → Nat → Nat
  | 0, i => i
  | fuel + 1, i => if hitAt c st0 (i + 1) then i + 1 else runLenGo c st0 fuel (i + 1)

/-- The number of steps a run of `steps` configured iterations executes. -/
def runLength (c : SimCtx K) (st0 : SimState K) : Nat :=
  runLenGo c st0 c.steps 0

/-- The final mass array of a finished run (zero function on an exception —
the hypotheses of the theorems using it exclude that case). -/
def finalMOf (out : WorldM K × Except SimErr (RunResultM K)) : Nat → K :=
  match out.2 with
  | .ok res => res.finalState.m
  | .error _ => fun _ => 0

/-- The final position rows of a finished run. -/
def finalROf (out : WorldM K × Except SimErr (RunResultM K)) : Nat → V3 K :=
  match out.2 with
  | .ok res => res.finalState.r
  | .error _ => fun _ => 0

/-- The final velocity rows of a finished run. -/
def finalVOf (out : WorldM K × Except SimErr (RunResultM K)) : Nat → V3 K :=
  match out.2 with
  | .ok res => res.finalState.v
  | .error _ => fun _ => 0

/-- The returned step count of a finished run. -/
def stepsOf (out : WorldM K × Except SimErr (RunResultM K)) : Nat :=
  match out.2 with
  | .ok res => res.steps
  | .error _ => 0

/-- `config` omits `steps` or sets it to `0`. -/
def stepsAbsentOrZero (w : WorldM K) : Bool :=
  match w.config with
  | none => true
  | some c => match c.steps with
    | none => true
    | some s => s == 0

end DriverObservables

/-! ## Concrete fixtures used by witnesses and counterexamples -/

/-- Identity stand-in for the threaded square root on `ℚ` fixtures. -/
def sqrtQ : ℚ → ℚ := fun q => q

/-- A gravity card with `G` present and no drift budgets (all default to the
disabled `1.0`). -/
def simCardG : LawCardM :=
  ⟨gravityId, "1", "rg:LawCard", "Gravity", [], [],
   [("G", ⟨0, "m^3/(kg*s^2)", none⟩)], [], [],
   none, none, none, none, none, none, Json.obj []⟩

def simBody1 : BodyM ℚ :=
  ⟨"b1", ⟨2, "kg", none⟩,
   ⟨"f0", "t0", ⟨⟨1, 2, 3⟩, "m", none⟩, ⟨⟨4, 5, 6⟩, "m/s", none⟩⟩⟩

def simFrame : FrameM :=
  ⟨"f0", "flat", [("length", "m"), ("time", "s"), ("mass", "kg")]⟩

def simDyn : DynamicM := ⟨gravityId, none, none⟩

/-- A one-body gravity world configured for one step of one second. -/
def simWorld1 : WorldM ℚ :=
  ⟨"w1", "1", [simFrame], [simBody1], [simDyn], none, some ⟨some 1, some 1⟩⟩

/-- The same world with `steps` missing from the config. -/
def simWorld0 : WorldM ℚ :=
  ⟨"w0", "1", [simFrame], [simBody1], [simDyn], none, some ⟨some 1, none⟩⟩

def simCards : List (String × LawCardM) := [(gravityId, simCardG)]

/-- A concrete loop context over the one-body gravity fixture. -/
def c5Ctx : SimCtx ℚ :=
  ⟨sqrtQ, defaultSolverCfg, simCardG, simCards, fun _ => none, 1, [simDyn],
   fun _ => 1, 0, ⟨0, 0, 0⟩, 1, 1, 1, 1, 1⟩

/-- A concrete state for the composed-step witness. -/
def c5St : SimState ℚ :=
  ⟨0, fun _ => ⟨1, 2, 3⟩, fun _ => ⟨4, 5, 6⟩, fun _ => 1⟩

/-- The zero acceleration rows the gravity-only fixture produces
externally. -/
def c5zf : Nat → V3 ℚ := fun _ => 0

/-- The same zero rows in the summed form the external fold produces. -/
def c5zsum : Nat → V3 ℚ := fun _ => (0 : V3 ℚ) + 0

/-- The successful setup of the fixture world, split into its context and
step-zero state. -/
def c4Prep : Except SimErr (SimCtx ℚ × SimState ℚ) :=
  simPrep simWorld1 sqrtQ simCards defaultRegistry

/-- The loop context `simPrep` builds for the fixture world. -/
def c4Ctx : SimCtx ℚ :=
  match c4Prep with
  | .ok p => p.1
  | .error _ => c5Ctx

/-- The step-zero state `simPrep` builds for the fixture world. -/
def c4St0 : SimState ℚ :=
  match c4Prep with
  | .ok p => p.2
  | .error _ => c5St

/-- Replacement rows used to exercise the write-back. -/
def c8r : Nat → V3 ℚ := fun _ => ⟨7, 8, 9⟩

def c8v : Nat → V3 ℚ := fun _ => ⟨10, 11, 12⟩

/-- `simBody1` after `_arrays_to_world` writes `c8r 0` and `c8v 0` into it. -/
def c8upd : BodyM ℚ :=
  ⟨"b1", ⟨2, "kg", none⟩,
   ⟨"f0", "t0", ⟨⟨7, 8, 9⟩, "m", none⟩, ⟨⟨10, 11, 12⟩, "m/s", none⟩⟩⟩

/-- A one-body fixture world entity. -/
def c7Body : BodyM ℚ :=
  ⟨"a", ⟨1, "kg", none⟩,
   ⟨"frame0", "t0", ⟨⟨0, 0, 0⟩, "m", none⟩, ⟨⟨0, 0, 0⟩, "m/s", none⟩⟩⟩

def c7Entities : List (BodyM ℚ) := [c7Body]

/-- A selector naming the only body explicitly. -/
def c7Sel : Option SelectorM := some ⟨some ["a"], none⟩

/-! ### Spec-side characterizations of the IRI scan (for the C3/C6 claims) -/

/-- A scan candidate the loop would select: it parses to an object whose `id`
equals the ref and whose full load-and-verify succeeds. -/
def candGood (env : ResolveEnv) (ref p : String) : Bool :=
  match envRead env p with
  | some (some (.obj fs)) =>
    match jLookup fs "id" with
    | some (.str s) => s = ref && (loadLawcardFromPath env p true).isOk
    | _ => false
  | _ => false

/-- The exception a scan candidate contributes to `last_error`, if any: a
read or parse failure, an attribute error on a non-object document, or — for
a candidate whose `id` matches — a load/verify failure (schema error or hash
mismatch). -/
def candErrVal (env : ResolveEnv) (ref p : String) : Option ResolveErr :=
  match envRead env p with
  | none => some (.osErr p)
  | some none => some (.jsonDecodeErr p)
  | some (some data) =>
    match data with
    | .obj fs =>
      match jLookup fs "id" with
      | some (.str s) =>
        if s = ref then
          match loadLawcardFromPath env p true with
          | .error e => some e
          | .ok _ => none
        else none
      | _ => none
    | _ => some (.attrErr p)

/-- The first candidate the scan would select. -/
def firstGood (env : ResolveEnv) (ref : String) : Option String :=
  env.scan.find? (candGood env ref)

/-- The value `last_error` holds after a full scan. -/
def lastScanErr (env : ResolveEnv) (ref : String) : Option ResolveErr :=
  (env.scan.filterMap (candErrVal env ref)).getLast?

/-- Equality of resolver outcomes on decidable payloads. -/
instance instDecEqExcept {ε α : Type} [DecidableEq ε] [DecidableEq α] :
    DecidableEq (Except ε α) := fun x y =>
  match x, y with
  | .error u, .error v => decidable_of_iff (u = v) (by simp)
  | .error _, .ok _ => isFalse (by simp)
  | .ok _, .error _ => isFalse (by simp)
  | .ok u, .ok v => decidable_of_iff (u = v) (by simp)

/-! ### Resolver fixtures -/

/-- A complete, schema-valid card document whose `sha256` is present but
empty. -/
def c6xData : Json :=
  .obj [("id", .str "rg:law/x"), ("version", .str "1"),
        ("type", .str "rg:LawCard"), ("title", .str "X"),
        ("kind", .arr []), ("equations", .arr []), ("parameters", .obj []),
        ("validity", .obj []), ("invariants", .obj []),
        ("sha256", .str "")]

def c6xEnv : ResolveEnv := ⟨[("card.json", some c6xData)], [], []⟩

/-- A complete card document with a correct canonical hash. -/
def c6wData : Json :=
  .obj [("id", .str "rg:law/w"), ("version", .str "1"),
        ("type", .str "rg:LawCard"), ("title", .str "W"),
        ("kind", .arr []), ("equations", .arr []), ("parameters", .obj []),
        ("validity", .obj []), ("invariants", .obj []),
        ("sha256", .str
          "d46d4730338f98ecfdaa6e7d7a889c56941308806e31c716ac42269d805c0c73")]

/-- The card `LawCard(**c6wData)` constructs. -/
def c6wCard : LawCardM :=
  ⟨"rg:law/w", "1", "rg:LawCard", "W", [], [], [], [], [],
   none, none, none,
   some "d46d4730338f98ecfdaa6e7d7a889c56941308806e31c716ac42269d805c0c73",
   none, none, c6wData⟩

def c6wEnv : ResolveEnv := ⟨[("w.json", some c6wData)], [], []⟩

/-- A complete card document with no `sha256` at all. -/
def c6sData : Json :=
  .obj [("id", .str "rg:law/s"), ("version", .str "1"),
        ("type", .str "rg:LawCard"), ("title", .str "S"),
        ("kind", .arr []), ("equations", .arr []), ("parameters", .obj []),
        ("validity", .obj []), ("invariants", .obj [])]

def c6sEnv : ResolveEnv := ⟨[("s.json", some c6sData)], [], ["s.json"]⟩

/-- A complete, schema-valid card whose declared `sha256` is wrong. -/
def c3xData : Json :=
  .obj [("id", .str "rg:law/bad"), ("version", .str "1"),
        ("type", .str "rg:LawCard"), ("title", .str "B"),
        ("kind", .arr []), ("equations", .arr []), ("parameters", .obj []),
        ("validity", .obj []), ("invariants", .obj []),
        ("sha256", .str "00")]

def c3xEnv : ResolveEnv := ⟨[("bad.json", some c3xData)], [], ["bad.json"]⟩

/-- Scan fixture: an unparsable file followed by a matching valid card. -/
def c3w1Env : ResolveEnv :=
  ⟨[("junk.json", none), ("good.json", some c6sData)], [],
   ["junk.json", "good.json"]⟩

/-- Scan fixture: one candidate whose id does not match anything. -/
def c3w2Env : ResolveEnv := ⟨[("other.json", some c6sData)], [], ["other.json"]⟩

/-- Scan fixture: a single unparsable candidate. -/
def c3w3Env : ResolveEnv := ⟨[("junk.json", none)], [], ["junk.json"]⟩

/-! ## Claim C2 — `rel_drift` -/

/-- **C2, counterexample.**  The claim says `rel_drift(current, baseline)`
equals `|current − baseline| / |baseline|` for every pair of scalars with
nonzero baseline.  At `current = −1`, `baseline = 1` the source computes
`abs((|−1| − |1|) / |1|) = 0`, while the claimed formula gives `2`. -/
theorem c2_counterexample :
    relDriftScalar (-1 : ℚ) 1 = 0 ∧ |(-1 : ℚ) - 1| / |(1 : ℚ)| = 2 := by
  constructor <;> norm_num [relDriftScalar]

/-- **C2, amended.**  `rel_drift` compares the *norms* of its arguments: with
nonzero baseline it returns `||current| − |baseline|| / |baseline|` for
scalars (which agrees with the claimed `|current − baseline| / |baseline|`
exactly when the two share a sign) and
`|‖current‖ − ‖baseline‖| / ‖baseline‖` for 3-vectors; when the baseline norm
is zero it returns the norm of the current value. -/
theorem c2_rel_drift {K : Type} [LinearOrderedField K] (sqrt : K → K)
    (c b : K) (vc vb : V3 K) :
    (b = 0 → relDriftScalar c b = |c|) ∧
    (b ≠ 0 → relDriftScalar c b = |(|c| - |b|)| / |b|) ∧
    (b ≠ 0 → 0 ≤ c * b → relDriftScalar c b = |c - b| / |b|) ∧
    (sqrt (dotV vb vb) = 0 → relDriftVec sqrt vc vb = sqrt (dotV vc vc)) ∧
    (sqrt (dotV vb vb) ≠ 0 →
      relDriftVec sqrt vc vb =
        |sqrt (dotV vc vc) - sqrt (dotV vb vb)| / |sqrt (dotV vb vb)|) := by
  refine ⟨fun hb => ?_, fun hb => ?_, fun hb hcb => ?_, fun hv => ?_, fun hv => ?_⟩
  · simp [relDriftScalar, hb]
  · have habs : |b| ≠ 0 := abs_ne_zero.mpr hb
    simp only [relDriftScalar, if_neg habs, abs_div, abs_abs]
  · have habs : |b| ≠ 0 := abs_ne_zero.mpr hb
    have key : |(|c| - |b|)| = |c - b| := by
      rcases le_or_lt 0 b with h0b | h0b
      · have hbpos : 0 < b := lt_of_le_of_ne h0b (Ne.symm hb)
        have hc : 0 ≤ c := nonneg_of_mul_nonneg_right (by linarith [hcb] : 0 ≤ b * c) hbpos
        rw [abs_of_nonneg hc, abs_of_nonneg h0b]
      · have hc : c ≤ 0 := by nlinarith
        rw [abs_of_nonpos hc, abs_of_nonpos h0b.le]
        rw [abs_sub_comm, ← neg_sub]
        congr 1
        ring
    simp only [relDriftScalar, if_neg habs, abs_div, abs_abs, key]
  · simp [relDriftVec, hv]
  · simp only [relDriftVec, if_neg hv, abs_div]

/-- Witness for `c2_rel_drift`: every hypothesis is satisfiable, shown on
concrete rationals with the identity as the square-root stand-in. -/
theorem c2_rel_drift_witness :
    relDriftScalar (5 : ℚ) 0 = |(5 : ℚ)| ∧
    relDriftScalar (-2 : ℚ) 3 = |(|(-2 : ℚ)| - |(3 : ℚ)|)| / |(3 : ℚ)| ∧
    relDriftScalar (2 : ℚ) 3 = |(2 : ℚ) - 3| / |(3 : ℚ)| ∧
    relDriftVec (fun q : ℚ => q) ⟨1, 2, 2⟩ ⟨0, 0, 0⟩ =
      (fun q : ℚ => q) (dotV (⟨1, 2, 2⟩ : V3 ℚ) ⟨1, 2, 2⟩) ∧
    relDriftVec (fun q : ℚ => q) ⟨1, 2, 2⟩ ⟨0, 3, 4⟩ =
      |(fun q : ℚ => q) (dotV (⟨1, 2, 2⟩ : V3 ℚ) ⟨1, 2, 2⟩) -
        (fun q : ℚ => q) (dotV (⟨0, 3, 4⟩ : V3 ℚ) ⟨0, 3, 4⟩)| /
        |(fun q : ℚ => q) (dotV (⟨0, 3, 4⟩ : V3 ℚ) ⟨0, 3, 4⟩)| :=
  ⟨(c2_rel_drift (fun q : ℚ => q) 5 0 ⟨0, 0, 0⟩ ⟨0, 0, 0⟩).1 rfl,
   (c2_rel_drift (fun q : ℚ => q) (-2) 3 ⟨0, 0, 0⟩ ⟨0, 0, 0⟩).2.1 (by norm_num),
   (c2_rel_drift (fun q : ℚ => q) 2 3 ⟨0, 0, 0⟩ ⟨0, 0, 0⟩).2.2.1 (by norm_num)
     (by norm_num),
   (c2_rel_drift (fun q : ℚ => q) 0 0 ⟨1, 2, 2⟩ ⟨0, 0, 0⟩).2.2.2.1
     (by norm_num [dotV]),
   (c2_rel_drift (fun q : ℚ => q) 0 0 ⟨1, 2, 2⟩ ⟨0, 3, 4⟩).2.2.2.2
     (by norm_num [dotV])⟩

/-! ## Claim C9 — kernel equivalence and kernel selection -/

/-- **C9.**  In exact arithmetic the per-body kernel `_accels_loop` and the
dense pairwise kernel `_accels_vectorized` are the same function of `G`, the
masses, the positions and `ε²` — acceleration results do not depend on kernel
choice — and `_should_vectorize` selects the dense kernel exactly when
vectorization is enabled, `N` is at least the threshold, and the estimated
`48·N²` working-set bytes are below the configured cap. -/
theorem c9_kernel_equivalence {K : Type} [LinearOrderedField K]
    (sqrt : K → K) (G : K) (n : Nat) (m : Nat → K) (r : Nat → V3 K)
    (eps2 : K) (s : SolverCfg K) :
    accelsLoop sqrt G n m r eps2 = accelsVectorized sqrt G n m r eps2 ∧
    shouldVectorize s n =
      (s.vectorized && decide ((s.vectorizeThreshold : Int) ≤ (n : Int)) &&
        decide (48 * (n : Int) ^ 2 < s.maxVectorizedBytes)) := by
  constructor
  · funext i
    simp only [accelsLoop, accelsVectorized]
    refine congrArg (fun f => (-G) • sumV n f) (funext fun j => ?_)
    by_cases h : i = j
    · subst h; simp
    · have h' : ¬(j = i) := fun hh => h hh.symm
      simp [h, h']
  · simp only [shouldVectorize]
    cases hv : s.vectorized
    · simp
    · simp only [Bool.not_true, Bool.false_or, Bool.true_and]
      split
      · next h =>
          rw [decide_eq_true_eq] at h
          have : ¬((s.vectorizeThreshold : Int) ≤ (n : Int)) := not_le.mpr h
          simp [this]
      · next h =>
          rw [decide_eq_true_eq] at h
          have : (s.vectorizeThreshold : Int) ≤ (n : Int) := not_lt.mp h
          simp [this]

/-! ## Claim C7 — selector masks -/

lemma maskBodies_mem (idx : String → Option Nat) (bodies : Option (List String))
    (mk : Nat → Bool) (i : Nat) :
    maskBodies idx bodies mk i = true ↔
      (mk i = true ∨ i ∈ (bodies.getD []).filterMap idx) := by
  cases bodies with
  | none => simp [maskBodies]
  | some bs =>
    simp only [maskBodies, Option.getD_some]
    induction bs generalizing mk with
    | nil => simp
    | cons b bs ih =>
      rw [List.foldl_cons, ih]
      cases hb : idx b with
      | none => simp [hb, List.filterMap_cons]
      | some j =>
        simp only [hb, List.filterMap_cons, setMask]
        by_cases hij : i = j
        · subst hij; simp
        · simp [hij]

lemma maskPairs_mem (idx : String → Option Nat)
    (pairs : Option (List (String × String))) (mk : Nat → Bool) (i : Nat) :
    maskPairs idx pairs mk i = true ↔
      (mk i = true ∨
        i ∈ (pairs.getD []).flatMap
          (fun ab => (idx ab.1).toList ++ (idx ab.2).toList)) := by
  cases pairs with
  | none => simp [maskPairs]
  | some ps =>
    simp only [maskPairs, Option.getD_some]
    induction ps generalizing mk with
    | nil => simp
    | cons ab ps ih =>
      rw [List.foldl_cons, ih]
      have hstep : ∀ mk' : Nat → Bool,
          ((let mkA := match idx ab.1 with
              | some ia => setMask mk' ia
              | none => mk'
            match idx ab.2 with
            | some ib => setMask mkA ib
            | none => mkA) i = true) ↔
            (mk' i = true ∨ i ∈ (idx ab.1).toList ++ (idx ab.2).toList) := by
        intro mk'
        cases h1 : idx ab.1 with
        | none =>
          cases h2 : idx ab.2 with
          | none => simp [h1, h2]
          | some j2 =>
            by_cases hj2 : i = j2 <;> simp [h1, h2, setMask, hj2]
        | some j1 =>
          cases h2 : idx ab.2 with
          | none =>
            by_cases hj1 : i = j1 <;> simp [h1, h2, setMask, hj1]
          | some j2 =>
            by_cases hj1 : i = j1 <;> by_cases hj2 : i = j2 <;>
              simp [h1, h2, setMask, hj1, hj2]
      rw [hstep]
      simp only [List.flatMap_cons, List.mem_append]
      tauto

lemma enumFoldl_some {K : Type} [LinearOrderedField K] (l : List (BodyM K)) :
    ∀ (k : Nat) (acc : String → Option Nat) (s : String) (j : Nat),
      ((List.enumFrom k l).foldl
          (fun acc ie => fun s => if s = ie.2.id then some ie.1 else acc s)
          acc) s = some j →
      acc s = some j ∨ (k ≤ j ∧ j < k + l.length) := by
  induction l with
  | nil => intro k acc s j h; exact Or.inl h
  | cons b l ih =>
    intro k acc s j h
    simp only [List.enumFrom, List.foldl_cons] at h
    rcases ih (k + 1) _ s j h with h' | h'
    · by_cases hs : s = b.id
      · simp only [hs, if_true, eq_self_iff_true, if_pos] at h'
        rw [Option.some_inj] at h'
        right
        simp only [List.length_cons]
        omega
      · simp only [if_neg hs] at h'
        exact Or.inl h'
    · right
      simp only [List.length_cons]
      omega

lemma indexById_lt {K : Type} [LinearOrderedField K]
    (entities : List (BodyM K)) (s : String) (j : Nat)
    (h : indexById entities s = some j) : j < entities.length := by
  simp only [indexById, List.enum] at h
  rcases enumFoldl_some entities 0 (fun _ => none) s j h with h' | h'
  · exact absurd h' (by simp)
  · omega

lemma selUnion_lt {K : Type} [LinearOrderedField K]
    (entities : List (BodyM K)) (sel : Option SelectorM) (j : Nat)
    (hj : j ∈ selUnion (indexById entities) sel) : j < entities.length := by
  cases sel with
  | none => simp [selUnion] at hj
  | some s =>
    simp only [selUnion, List.mem_append] at hj
    rcases hj with hj | hj
    · rcases List.mem_filterMap.mp hj with ⟨a, _, ha⟩
      exact indexById_lt entities a j ha
    · rcases List.mem_flatMap.mp hj with ⟨ab, _, hab⟩
      rcases List.mem_append.mp hab with h1 | h1
      · rcases Option.mem_toList.mp h1 with h2
        exact indexById_lt entities ab.1 j h2
      · rcases Option.mem_toList.mp h1 with h2
        exact indexById_lt entities ab.2 j h2

lemma maskInner_mem {K : Type} [LinearOrderedField K]
    (entities : List (BodyM K)) (s : SelectorM) (i : Nat) :
    maskPairs (indexById entities) s.pairs
        (maskBodies (indexById entities) s.bodies (fun _ => false)) i = true ↔
      i ∈ selUnion (indexById entities) (some s) := by
  rw [maskPairs_mem, maskBodies_mem]
  simp [selUnion]

/-- **C7, amended.**  For every selector and world the computed mask is the
union of the explicitly named bodies and the endpoints of the pair entries
(unknown ids contributing nothing), falling back to all-true when that union
is empty; and the mask is all-true iff the selector is absent/empty, the
union resolves to the empty set, *or the union already contains every body
index* (the original claim's "only if" direction fails in that last case). -/
theorem c7_selector_mask {K : Type} [LinearOrderedField K]
    (entities : List (BodyM K)) (sel : Option SelectorM) (i : Nat) :
    (i < entities.length →
      (maskFromSelector (indexById entities) sel entities.length i = true ↔
        (i ∈ selUnion (indexById entities) sel ∨
          selUnion (indexById entities) sel = []))) ∧
    ((∀ j, j < entities.length →
        maskFromSelector (indexById entities) sel entities.length j = true) ↔
      (selUnion (indexById entities) sel = [] ∨
        ∀ j, j < entities.length → j ∈ selUnion (indexById entities) sel)) := by
  cases sel with
  | none =>
    constructor
    · intro _
      simp [maskFromSelector, selUnion]
    · simp [maskFromSelector, selUnion]
  | some s =>
    have hmem := maskInner_mem entities s
    by_cases hany : maskAny
        (maskPairs (indexById entities) s.pairs
          (maskBodies (indexById entities) s.bodies (fun _ => false)))
        entities.length = true
    · have hmask : maskFromSelector (indexById entities) (some s)
          entities.length =
          maskPairs (indexById entities) s.pairs
            (maskBodies (indexById entities) s.bodies (fun _ => false)) := by
        simp [maskFromSelector, hany]
      rcases List.any_eq_true.mp ((by simpa [maskAny] using hany :
          (List.range entities.length).any
            (maskPairs (indexById entities) s.pairs
              (maskBodies (indexById entities) s.bodies (fun _ => false)))
            = true)) with ⟨j0, hj0r, hj0⟩
      have hj0U : j0 ∈ selUnion (indexById entities) (some s) :=
        (hmem j0).mp hj0
      have hUne : selUnion (indexById entities) (some s) ≠ [] := by
        intro hU; rw [hU] at hj0U; simp at hj0U
      constructor
      · intro _
        rw [hmask, hmem i]
        constructor
        · exact Or.inl
        · intro h; rcases h with h | h
          · exact h
          · exact absurd h hUne
      · rw [hmask]
        constructor
        · intro hall
          exact Or.inr fun j hj => (hmem j).mp (hall j hj)
        · intro h j hj
          rcases h with h | h
          · exact absurd h hUne
          · exact (hmem j).mpr (h j hj)
    · have hmask : maskFromSelector (indexById entities) (some s)
          entities.length = fun _ => true := by
        simp only [maskFromSelector]
        rw [if_neg (by simpa using hany)]
      have hU : selUnion (indexById entities) (some s) = [] := by
        rcases hU : selUnion (indexById entities) (some s) with _ | ⟨j0, U⟩
        · rfl
        · exfalso
          have hj0U : j0 ∈ selUnion (indexById entities) (some s) := by
            rw [hU]; exact List.mem_cons_self j0 U
          have hj0n : j0 < entities.length := selUnion_lt entities (some s) j0 hj0U
          have : maskPairs (indexById entities) s.pairs
              (maskBodies (indexById entities) s.bodies (fun _ => false)) j0
              = true := (hmem j0).mpr hj0U
          exact hany (List.any_eq_true.mpr
            ⟨j0, List.mem_range.mpr hj0n, this⟩)
      constructor
      · intro _
        rw [hmask]
        simp [hU]
      · rw [hmask, hU]
        simp

/-- **C7, counterexample.**  The claim's "the mask is all-true if and only if
the selector is absent/empty or that union resolves to the empty set" fails
in the only-if direction: in a one-body world a selector naming that body
explicitly yields an all-true mask (`n = 1`, so index 0 is all of it) while
the selector is present and its union is `[0]`, not empty. -/
theorem c7_counterexample :
    maskFromSelector (indexById c7Entities) c7Sel 1 0 = true ∧
    c7Sel ≠ none ∧
    selUnion (indexById c7Entities) c7Sel = [0] := by
  refine ⟨by decide, by decide, by decide⟩

/-- Witness for `c7_selector_mask`: its membership characterization applied
to the fixture world at index `0`. -/
theorem c7_selector_mask_witness :
    maskFromSelector (indexById c7Entities) c7Sel c7Entities.length 0 = true ↔
      (0 ∈ selUnion (indexById c7Entities) c7Sel ∨
        selUnion (indexById c7Entities) c7Sel = []) :=
  (c7_selector_mask c7Entities c7Sel 0).1 (by decide)

/-! ## Claims C6 and C3 — canonical hashing and the IRI scan -/

lemma lawCardOfJson_payload (data : Json) (card : LawCardM)
    (h : lawCardOfJson data = some card) : card.payload = data := by
  unfold lawCardOfJson at h
  repeat' split at h
  any_goals exact Option.noConfusion h
  injection h with h'
  subst h'
  rfl

lemma loadLawcard_verified (env : ResolveEnv) (p : String) (card : LawCardM)
    (h : loadLawcardFromPath env p true = .ok card)
    (hsha : shaTruthy card.sha256 = true) :
    canonicalSha256 card.payload = card.sha256.getD "" := by
  unfold loadLawcardFromPath at h
  repeat' split at h
  any_goals exact Except.noConfusion h
  · injection h with h'
    subst h'
    rw [lawCardOfJson_payload _ _ (by assumption)]
    assumption
  · injection h with h'
    subst h'
    simp_all

lemma dictInsert_mem (out : List (String × LawCardM)) (k : String)
    (v : LawCardM) (e : String × LawCardM) (he : e ∈ dictInsert out k v) :
    e ∈ out ∨ e = (k, v) := by
  unfold dictInsert at he
  split at he
  · rcases List.mem_map.mp he with ⟨kv, hkv, heq⟩
    by_cases hk : kv.1 = k
    · right; rw [if_pos hk] at heq; exact heq.symm
    · left; rw [if_neg hk] at heq; rw [← heq]; exact hkv
  · rcases List.mem_append.mp he with h | h
    · exact Or.inl h
    · right; simpa using h

lemma resolveStep_ok (env : ResolveEnv) (out out' : List (String × LawCardM))
    (ref : String) (h : resolveStep env out ref = .ok out') (e : String × LawCardM)
    (he : e ∈ out')
    (hout : ∀ e' ∈ out,
      e'.1 = e'.2.id ∧ ∃ p, loadLawcardFromPath env p true = .ok e'.2) :
    e.1 = e.2.id ∧ ∃ p, loadLawcardFromPath env p true = .ok e.2 := by
  unfold resolveStep at h
  have hcard : ∃ card, (dictInsert out card.id card = out' ∧
      ∃ p, loadLawcardFromPath env p true = .ok card) := by
    split at h
    · rcases hload : loadLawcardFromPath env ref true with e' | card
      · rw [hload] at h
        simp [Bind.bind, Except.bind] at h
      · rw [hload] at h
        simp only [Bind.bind, Except.bind, pure, Except.pure,
          Except.ok.injEq] at h
        exact ⟨card, h, ref, hload⟩
    · split at h
      · simp [Bind.bind, Except.bind] at h
      · simp [Bind.bind, Except.bind] at h
      · next p2 _ =>
          rcases hload : loadLawcardFromPath env p2 true with e' | card
          · rw [hload] at h
            simp [Bind.bind, Except.bind] at h
          · rw [hload] at h
            simp only [Bind.bind, Except.bind, pure, Except.pure,
              Except.ok.injEq] at h
            exact ⟨card, h, p2, hload⟩
  rcases hcard with ⟨card, hdict, p, hp⟩
  rw [← hdict] at he
  rcases dictInsert_mem out card.id card e he with h1 | h1
  · exact hout e h1
  · subst h1
    exact ⟨rfl, p, hp⟩

lemma resolveCards_foldAux (env : ResolveEnv) :
    ∀ (refs : List String) (acc out : List (String × LawCardM)),
      (∀ e' ∈ acc,
        e'.1 = e'.2.id ∧ ∃ p, loadLawcardFromPath env p true = .ok e'.2) →
      refs.foldlM (resolveStep env) acc = .ok out →
      ∀ e ∈ out,
        e.1 = e.2.id ∧ ∃ p, loadLawcardFromPath env p true = .ok e.2 := by
  intro refs
  induction refs with
  | nil =>
    intro acc out hacc h e he
    simp only [List.foldlM_nil] at h
    injection h with h'
    subst h'
    exact hacc e he
  | cons ref refs ih =>
    intro acc out hacc h e he
    simp only [List.foldlM_cons] at h
    rcases hstep : resolveStep env acc ref with e' | acc'
    · rw [hstep] at h
      simp [Bind.bind, Except.bind] at h
    · rw [hstep] at h
      simp only [Bind.bind, Except.bind] at h
      exact ih acc' out
        (fun e' he' => resolveStep_ok env acc acc' ref hstep e' he' hacc) h e he

/-- Every entry of a successful `resolve_cards` came out of a
`verify_hash=True` load somewhere, keyed by its declared id. -/
lemma resolveCards_mem (env : ResolveEnv) (refs : List String)
    (out : List (String × LawCardM)) (h : resolveCards env refs = .ok out)
    (e : String × LawCardM) (he : e ∈ out) :
    e.1 = e.2.id ∧ ∃ p, loadLawcardFromPath env p true = .ok e.2 :=
  resolveCards_foldAux env refs [] out (by simp) h e he

lemma scanForRef_sel (env : ResolveEnv) (ref : String) :
    ∀ (ps : List String) (le : Option ResolveErr) (p : String),
      scanForRef env ref ps le = .ok (some p) →
      (loadLawcardFromPath env p true).isOk = true := by
  intro ps
  induction ps with
  | nil =>
    intro le p h
    cases le <;> simp [scanForRef] at h
  | cons q ps ih =>
    intro le p h
    unfold scanForRef at h
    repeat' split at h
    any_goals exact ih _ p h
    next hload =>
      injection h with h'
      injection h' with h''
      subst h''
      rw [hload]
      rfl

lemma resolveIri_sel (env : ResolveEnv) (ref p : String)
    (h : resolveIriToPath env ref = .ok (some p)) :
    (loadLawcardFromPath env p true).isOk = true := by
  unfold resolveIriToPath at h
  split at h
  · split at h
    · split at h
      · next hload =>
          injection h with h'
          injection h' with h''
          subst h''
          rw [hload]
          rfl
      · exact scanForRef_sel env ref env.scan none p h
    · exact scanForRef_sel env ref env.scan none p h
  · exact scanForRef_sel env ref env.scan none p h

/-- **C6, amended.**  Every card in a successful `resolve_cards` result whose
`sha256` is present *and nonempty* satisfies the canonical-hash equation —
the SHA-256 of its payload with the `sha256` field removed, serialized with
lexicographically sorted keys and minimal separators, equals the stored
lowercase hex digest — so a card with a nonempty `sha256` that fails the
check is never returned from a direct-path resolve; and a path selected by an
IRI scan always re-loads with a verified hash.  (A present-but-*empty*
`sha256` is falsy in Python and skips verification, which is why the original
"present" had to become "present and nonempty".) -/
theorem c6_canonical_hash (env : ResolveEnv) (refs : List String)
    (out : List (String × LawCardM)) (k : String) (card : LawCardM)
    (ref p : String) :
    (resolveCards env refs = .ok out → (k, card) ∈ out →
      shaTruthy card.sha256 = true →
      k = card.id ∧ canonicalSha256 card.payload = card.sha256.getD "") ∧
    (resolveIriToPath env ref = .ok (some p) →
      (loadLawcardFromPath env p true).isOk = true) := by
  constructor
  · intro hres hmem hsha
    rcases resolveCards_mem env refs out hres (k, card) hmem with ⟨hk, q, hq⟩
    exact ⟨hk, loadLawcard_verified env q card hq hsha⟩
  · exact resolveIri_sel env ref p

set_option maxRecDepth 200000 in
/-- **C6, counterexample.**  The claim covers every card whose `sha256` field
is *present*.  A schema-valid card declaring `sha256 = ""` (present but
empty) is falsy in `if verify_hash and card.sha256`, so a direct-path resolve
returns it unverified — yet its canonical hash, a 64-character digest, cannot
equal the stored empty string. -/
theorem c6_counterexample :
    (resolveCards c6xEnv ["card.json"]).map
      (fun out => out.map (fun kv => (kv.1, kv.2.sha256))) =
      .ok [("rg:law/x", some "")] ∧
    (canonicalSha256 c6xData).length = 64 ∧ ("" : String).length = 0 := by
  refine ⟨by decide, by decide, rfl⟩

set_option maxRecDepth 200000 in
/-- Witness for `c6_canonical_hash`: a card with a correct nonempty canonical
hash resolved by direct path satisfies the hash equation, and an IRI scan
selection re-loads successfully. -/
theorem c6_canonical_hash_witness :
    ("rg:law/w" = c6wCard.id ∧
      canonicalSha256 c6wCard.payload = c6wCard.sha256.getD "") ∧
    (loadLawcardFromPath c6sEnv "s.json" true).isOk = true :=
  ⟨(c6_canonical_hash c6wEnv ["w.json"] [("rg:law/w", c6wCard)] "rg:law/w"
      c6wCard "rg:law/s" "s.json").1 (by rfl) (by simp) (by rfl),
   (c6_canonical_hash c6sEnv [] [] "" c6wCard "rg:law/s" "s.json").2 (by rfl)⟩

lemma getLast?_cons_or {α : Type} (a : α) (l : List α) :
    (a :: l).getLast? = some (l.getLast?.getD a) := by
  induction l generalizing a with
  | nil => rfl
  | cons b l ih =>
    rw [List.getLast?_cons_cons, ih b]
    simp

/-- One scan step, phrased through the candidate observables. -/
lemma scanForRef_cons (env : ResolveEnv) (ref p : String) (ps : List String)
    (le : Option ResolveErr) :
    scanForRef env ref (p :: ps) le =
      match candGood env ref p, candErrVal env ref p with
      | true, _ => .ok (some p)
      | false, some e => scanForRef env ref ps (some e)
      | false, none => scanForRef env ref ps le := by
  cases henv : envRead env p with
  | none => simp [scanForRef, candGood, candErrVal, henv]
  | some od =>
    cases od with
    | none => simp [scanForRef, candGood, candErrVal, henv]
    | some data =>
      cases data with
      | obj fs =>
        cases hid : jLookup fs "id" with
        | none => simp [scanForRef, candGood, candErrVal, henv, hid]
        | some idj =>
          cases idj with
          | str s =>
            by_cases hs : s = ref
            · cases hload : loadLawcardFromPath env p true with
              | ok c =>
                simp [scanForRef, candGood, candErrVal, henv, hid, hs, hload,
                  Except.isOk, Except.toBool]
              | error e =>
                simp [scanForRef, candGood, candErrVal, henv, hid, hs, hload,
                  Except.isOk, Except.toBool]
            · simp [scanForRef, candGood, candErrVal, henv, hid, hs]
          | null => simp [scanForRef, candGood, candErrVal, henv, hid]
          | bool b => simp [scanForRef, candGood, candErrVal, henv, hid]
          | num n => simp [scanForRef, candGood, candErrVal, henv, hid]
          | arr l => simp [scanForRef, candGood, candErrVal, henv, hid]
          | obj l => simp [scanForRef, candGood, candErrVal, henv, hid]
      | null => simp [scanForRef, candGood, candErrVal, henv]
      | bool b => simp [scanForRef, candGood, candErrVal, henv]
      | num n => simp [scanForRef, candGood, candErrVal, henv]
      | str s => simp [scanForRef, candGood, candErrVal, henv]
      | arr l => simp [scanForRef, candGood, candErrVal, henv]

/-- The scan loop in closed form: the first good candidate wins; with no good
candidate the last remembered error (the incoming one when the scan itself
saw none) is raised; with no error at all the scan reports no match. -/
lemma scanForRef_characterize (env : ResolveEnv) (ref : String) :
    ∀ (ps : List String) (le : Option ResolveErr),
      scanForRef env ref ps le =
        match ps.find? (candGood env ref) with
        | some p => .ok (some p)
        | none =>
          match (ps.filterMap (candErrVal env ref)).getLast? with
          | some e => .error e
          | none =>
            match le with
            | some e => .error e
            | none => .ok none := by
  intro ps
  induction ps with
  | nil => intro le; cases le <;> simp [scanForRef]
  | cons p ps ih =>
    intro le
    rw [scanForRef_cons]
    cases hg : candGood env ref p with
    | true =>
      rw [List.find?_cons_of_pos _ hg]
    | false =>
      rw [List.find?_cons_of_neg _ (by simp [hg])]
      cases he : candErrVal env ref p with
      | none =>
        dsimp only
        rw [List.filterMap_cons_none he, ih le]
      | some e =>
        dsimp only
        rw [List.filterMap_cons_some he, getLast?_cons_or, ih (some e)]
        cases hfind : ps.find? (candGood env ref) with
        | some q => rfl
        | none =>
          cases hlast : (ps.filterMap (candErrVal env ref)).getLast? with
          | some e' => simp
          | none => simp

/-- **C3, amended.**  With no index entries, a hash-mismatched scan candidate
is skipped *for selection*: the first candidate that parses, matches the id
and verifies is returned even when earlier candidates failed.  But when no
candidate matches, `resolve_cards` raises the not-found error naming the ref
and suggesting `RULEGRAPH_CARD_PATHS` only if the scan recorded no deferred
exception; otherwise the *last* deferred exception — a parse error **or a
hash mismatch** — is re-raised as the debugging aid (the original claim's
"hash mismatches are swallowed, only parse errors re-raised" is what fails). -/
theorem c3_iri_scan (env : ResolveEnv) (ref p : String) (e : ResolveErr)
    (hidx : env.index = []) :
    (firstGood env ref = some p →
      resolveIriToPath env ref = .ok (some p)) ∧
    (envRead env ref = none → firstGood env ref = none →
      lastScanErr env ref = none →
      resolveCards env [ref] = .error (.refNotFound (cannotResolveMsg ref))) ∧
    (envRead env ref = none → firstGood env ref = none →
      lastScanErr env ref = some e →
      resolveCards env [ref] = .error e) ∧
    cannotResolveMsg ref =
      "Cannot resolve LawCard ref '" ++ ref ++
        "'. Provide a local path or set RULEGRAPH_CARD_PATHS." := by
  have hiri : resolveIriToPath env ref = scanForRef env ref env.scan none := by
    unfold resolveIriToPath
    rw [hidx]
    simp
  refine ⟨fun hfg => ?_, fun hdir hfg hle => ?_, fun hdir hfg hle => ?_, rfl⟩
  · rw [hiri, scanForRef_characterize]
    rw [show env.scan.find? (candGood env ref) = some p from hfg]
  · have : resolveIriToPath env ref = .ok none := by
      rw [hiri, scanForRef_characterize]
      rw [show env.scan.find? (candGood env ref) = none from hfg,
        show (env.scan.filterMap (candErrVal env ref)).getLast? = none from hle]
    unfold resolveCards
    simp only [List.foldlM_cons, List.foldlM_nil]
    unfold resolveStep
    rw [hdir]
    simp only [Option.isSome_none, Bool.false_eq_true, if_false, this]
    rfl
  · have : resolveIriToPath env ref = .error e := by
      rw [hiri, scanForRef_characterize]
      rw [show env.scan.find? (candGood env ref) = none from hfg,
        show (env.scan.filterMap (candErrVal env ref)).getLast? = some e from hle]
    unfold resolveCards
    simp only [List.foldlM_cons, List.foldlM_nil]
    unfold resolveStep
    rw [hdir]
    simp only [Option.isSome_none, Bool.false_eq_true, if_false, this]
    rfl

set_option maxRecDepth 200000 in
/-- **C3, counterexample.**  A single scanned candidate that matches the
requested id but fails hash verification: the claim says the mismatch is
swallowed and `resolve_cards` raises the not-found error, but the source
re-raises the deferred `sha256 mismatch` error instead. -/
theorem c3_counterexample :
    resolveCards c3xEnv ["rg:law/bad"] =
      .error (.shaMismatch "bad.json" "00" (canonicalSha256 c3xData)) ∧
    ResolveErr.shaMismatch "bad.json" "00" (canonicalSha256 c3xData) ≠
      .refNotFound (cannotResolveMsg "rg:law/bad") := by
  exact ⟨by rfl, by simp⟩

/-- Witness for `c3_iri_scan`: a good candidate behind a broken one is
selected; an unmatched ref with a clean scan gives the not-found error; an
unmatched ref with a parse-error candidate re-raises that error. -/
theorem c3_iri_scan_witness :
    resolveIriToPath c3w1Env "rg:law/s" = .ok (some "good.json") ∧
    resolveCards c3w2Env ["rg:law/nope"] =
      .error (.refNotFound (cannotResolveMsg "rg:law/nope")) ∧
    resolveCards c3w3Env ["rg:law/s"] =
      .error (.jsonDecodeErr "junk.json") :=
  ⟨(c3_iri_scan c3w1Env "rg:law/s" "good.json" (.osErr "x") rfl).1 (by decide),
   (c3_iri_scan c3w2Env "rg:law/nope" "q" (.osErr "x") rfl).2.1
     (by rfl) (by decide) (by decide),
   (c3_iri_scan c3w3Env "rg:law/s" "q" (.jsonDecodeErr "junk.json") rfl).2.2.1
     (by rfl) (by decide) (by decide)⟩

/-! ## Claims C8 and C10 — write-back, mass preservation, missing `steps` -/

section DriverLemmas

variable {K : Type} [LinearOrderedField K]

lemma stepOnceE_ok (c : SimCtx K) (st st' : SimState K)
    (h : stepOnceE c st = .ok st') : st'.m = st.m ∧ st'.t = st.t + c.dt := by
  unfold stepOnceE at h
  split at h
  · exact Except.noConfusion h
  · dsimp only at h
    split at h
    · exact Except.noConfusion h
    · injection h with h'
      subst h'
      exact ⟨rfl, rfl⟩

lemma stepPure_m (c : SimCtx K) (st : SimState K) :
    (stepPure c st).m = st.m := by
  unfold stepPure
  split
  · next st' hst => exact (stepOnceE_ok c st st' hst).1
  · rfl

lemma simLoop_ok (c : SimCtx K) :
    ∀ (fuel i : Nat) (st : SimState K) (last : Option Nat)
      (st' : SimState K) (li : Option Nat),
      simLoop c fuel i st last = .ok (st', li) → st'.m = st.m := by
  intro fuel
  induction fuel with
  | zero =>
    intro i st last st' li h
    injection h with h'
    rw [show st' = (st, last).1 from congrArg Prod.fst h'.symm]
  | succ fuel ih =>
    intro i st last st' li h
    unfold simLoop at h
    split at h
    · exact Except.noConfusion h
    · next st1 hst1 =>
        have hm1 : st1.m = st.m := (stepOnceE_ok c st st1 hst1).1
        split at h
        · split at h
          · injection h with h'
            rw [show st' = (st1, some (i + 1)).1 from congrArg Prod.fst h'.symm]
            exact hm1
          · exact (ih _ _ _ _ _ h).trans hm1
        · exact (ih _ _ _ _ _ h).trans hm1

/-- What a successful `simPrep` pins down about the context and step-zero
state. -/
lemma simPrepRest_spec (w : WorldM K) (sqrt : K → K)
    (cards : List (String × LawCardM)) (reg : List (String × SolverCfg K))
    (lawRef : String) (c : SimCtx K) (st0 : SimState K)
    (h : simPrepRest w sqrt cards reg lawRef = .ok (c, st0)) :
    st0.t = 0 ∧ st0.m = (worldToArrays w).1 ∧
    st0.r = (worldToArrays w).2.1 ∧ st0.v = (worldToArrays w).2.2 ∧
    c.m0 = (worldToArrays w).1 ∧ c.n = w.entities.length ∧
    c.steps = (configSteps w).toNat ∧ c.dt = configDt w ∧
    c.sqrt = sqrt ∧ c.dyns = w.dynamics ∧ c.idx = indexById w.entities ∧
    c.inv0 = auditInvariants sqrt c.G c.n c.m0 st0.r st0.v := by
  unfold simPrepRest at h
  repeat' split at h
  any_goals exact Except.noConfusion h
  all_goals
    injection h with h'
    have hc : c = (⟨sqrt, _, _, cards, indexById w.entities, w.entities.length,
        w.dynamics, (worldToArrays w).1, _, _, _, _, _,
        (configSteps w).toNat, configDt w⟩ : SimCtx K) :=
      (congrArg Prod.fst h').symm
    have hst : st0 = (⟨0, (worldToArrays w).2.1, (worldToArrays w).2.2,
        (worldToArrays w).1⟩ : SimState K) :=
      (congrArg Prod.snd h').symm
    subst hc
    subst hst
    exact ⟨rfl, rfl, rfl, rfl, rfl, rfl, rfl, rfl, rfl, rfl, rfl, rfl⟩

lemma simPrep_spec (w : WorldM K) (sqrt : K → K)
    (cards : List (String × LawCardM)) (reg : List (String × SolverCfg K))
    (c : SimCtx K) (st0 : SimState K)
    (h : simPrep w sqrt cards reg = .ok (c, st0)) :
    st0.t = 0 ∧ st0.m = (worldToArrays w).1 ∧
    st0.r = (worldToArrays w).2.1 ∧ st0.v = (worldToArrays w).2.2 ∧
    c.m0 = (worldToArrays w).1 ∧ c.n = w.entities.length ∧
    c.steps = (configSteps w).toNat ∧ c.dt = configDt w ∧
    c.sqrt = sqrt ∧ c.dyns = w.dynamics ∧ c.idx = indexById w.entities ∧
    c.inv0 = auditInvariants sqrt c.G c.n c.m0 st0.r st0.v := by
  unfold simPrep at h
  repeat' split at h
  any_goals exact Except.noConfusion h
  all_goals exact simPrepRest_spec w sqrt cards reg _ c st0 h

omit [LinearOrderedField K] in
lemma arraysToWorld_get (w : WorldM K) (r v : Nat → V3 K) (i : Nat) :
    (arraysToWorld w r v).entities[i]? =
      (w.entities[i]?).map fun e =>
        { e with state := { e.state with
            position := { e.state.position with value := r i },
            velocity := { e.state.velocity with value := v i } } } := by
  unfold arraysToWorld
  rw [List.getElem?_map, List.getElem?_enum]
  cases w.entities[i]? <;> rfl

/-- Writing a world's own rows back into it is the identity. -/
lemma arraysToWorld_self (w : WorldM K) :
    arraysToWorld w (worldToArrays w).2.1 (worldToArrays w).2.2 = w := by
  have hent : (arraysToWorld w (worldToArrays w).2.1
      (worldToArrays w).2.2).entities = w.entities := by
    apply List.ext_getElem?
    intro i
    rw [arraysToWorld_get]
    cases he : w.entities[i]? with
    | none => rfl
    | some e =>
      simp only [worldToArrays, he, Option.map_some, Option.getD_some]
      rfl
  cases w
  simp only [arraysToWorld] at hent ⊢
  congr 1

/-- **C8.**  For every run that returns, the mass array is never mutated (the
final `m` equals `_world_to_arrays`' initial `m` pointwise) and the returned
world is the input world with each body's position and velocity *values*
overwritten by the final `r` and `v` rows, every other body field (id, mass,
frame, timestamp, units, sigmas) unchanged. -/
theorem c8_mass_writeback {K : Type} [LinearOrderedField K] (w : WorldM K)
    (sqrt : K → K) (cards : List (String × LawCardM))
    (reg : Option (List (String × SolverCfg K))) (r v : Nat → V3 K)
    (i j : Nat) :
    ((simulate w sqrt cards reg).2.isOk = true →
      finalMOf (simulate w sqrt cards reg) j = (worldToArrays w).1 j ∧
      (simulate w sqrt cards reg).1 =
        arraysToWorld w (finalROf (simulate w sqrt cards reg))
          (finalVOf (simulate w sqrt cards reg))) ∧
    (∀ e e', w.entities[i]? = some e →
      (arraysToWorld w r v).entities[i]? = some e' →
      e'.id = e.id ∧ e'.mass = e.mass ∧ e'.state.frame = e.state.frame ∧
      e'.state.t = e.state.t ∧
      e'.state.position.unit = e.state.position.unit ∧
      e'.state.position.sigma = e.state.position.sigma ∧
      e'.state.velocity.unit = e.state.velocity.unit ∧
      e'.state.velocity.sigma = e.state.velocity.sigma ∧
      e'.state.position.value = r i ∧ e'.state.velocity.value = v i) := by
  constructor
  · intro hok
    unfold simulate at hok ⊢
    rcases hprep : simPrep w sqrt cards (reg.getD defaultRegistry) with e | ⟨c, st0⟩
    · rw [hprep] at hok
      simp [Except.isOk, Except.toBool] at hok
    · rw [hprep] at hok
      dsimp only at hok ⊢
      rcases hloop : simLoop c c.steps 0 st0 none with e | ⟨stF, lastI⟩
      · rw [hloop] at hok
        simp [Except.isOk, Except.toBool] at hok
      · rw [hloop] at hok
        dsimp only at hok ⊢
        cases lastI with
        | none =>
          simp [Except.isOk, Except.toBool] at hok
        | some k =>
          constructor
          · show stF.m j = (worldToArrays w).1 j
            rw [simLoop_ok c c.steps 0 st0 none stF (some k) hloop,
              (simPrep_spec w sqrt cards _ c st0 hprep).2.1]
          · rfl
  · intro e e' he he'
    rw [arraysToWorld_get, he] at he'
    injection he' with h'
    subst h'
    exact ⟨rfl, rfl, rfl, rfl, rfl, rfl, rfl, rfl, rfl, rfl⟩

/-- **C10.**  When setup succeeds but `config` omits `steps` (or sets it 0),
the step count defaults to 0, the integration loop never runs, and `simulate`
fails with the unbound-loop-variable error at the `RunResult` construction —
after `_arrays_to_world` has already written the unchanged state back, so the
returned world equals the input world. -/
theorem c10_missing_steps {K : Type} [LinearOrderedField K] (w : WorldM K)
    (sqrt : K → K) (cards : List (String × LawCardM))
    (reg : Option (List (String × SolverCfg K)))
    (hprep : (simPrep w sqrt cards (reg.getD defaultRegistry)).isOk = true)
    (hsteps : stepsAbsentOrZero w = true) :
    configSteps w = 0 ∧
    (simulate w sqrt cards reg).2 = .error .nameErr ∧
    (simulate w sqrt cards reg).1 = w := by
  have hcs : configSteps w = 0 := by
    unfold stepsAbsentOrZero at hsteps
    unfold configSteps
    cases hc : w.config with
    | none => rfl
    | some cfg =>
      rw [hc] at hsteps
      dsimp only at hsteps ⊢
      cases hs : cfg.steps with
      | none => rfl
      | some s =>
        rw [hs] at hsteps
        dsimp only at hsteps
        simp only [beq_iff_eq] at hsteps
        exact hsteps
  refine ⟨hcs, ?_⟩
  rcases hp : simPrep w sqrt cards (reg.getD defaultRegistry) with e | ⟨c, st0⟩
  · rw [hp] at hprep
    exact absurd hprep (by simp [Except.isOk, Except.toBool])
  · have hspec := simPrep_spec w sqrt cards _ c st0 hp
    have hzero : c.steps = 0 := by
      rw [hspec.2.2.2.2.2.2.1, hcs]
      rfl
    have hloop : simLoop c c.steps 0 st0 none = .ok (st0, none) := by
      rw [hzero]
      rfl
    have hsim : simulate w sqrt cards reg =
        (arraysToWorld w st0.r st0.v, .error .nameErr) := by
      unfold simulate
      rw [hp]
      dsimp only
      rw [hloop]
    rw [hsim]
    refine ⟨rfl, ?_⟩
    show arraysToWorld w st0.r st0.v = w
    rw [hspec.2.2.1, hspec.2.2.2.1]
    exact arraysToWorld_self w

end DriverLemmas

/-- Witness for `c8_mass_writeback`: the one-body one-step gravity run
returns, keeps the mass row, and rewrites the world from the final rows; and
the write-back at explicit rows updates exactly the two value fields. -/
theorem c8_mass_writeback_witness :
    (finalMOf (simulate simWorld1 sqrtQ simCards none) 0 =
        (worldToArrays simWorld1).1 0 ∧
      (simulate simWorld1 sqrtQ simCards none).1 =
        arraysToWorld simWorld1
          (finalROf (simulate simWorld1 sqrtQ simCards none))
          (finalVOf (simulate simWorld1 sqrtQ simCards none))) ∧
    (c8upd.id = simBody1.id ∧ c8upd.mass = simBody1.mass ∧
      c8upd.state.frame = simBody1.state.frame ∧
      c8upd.state.t = simBody1.state.t ∧
      c8upd.state.position.unit = simBody1.state.position.unit ∧
      c8upd.state.position.sigma = simBody1.state.position.sigma ∧
      c8upd.state.velocity.unit = simBody1.state.velocity.unit ∧
      c8upd.state.velocity.sigma = simBody1.state.velocity.sigma ∧
      c8upd.state.position.value = c8r 0 ∧
      c8upd.state.velocity.value = c8v 0) :=
  ⟨(c8_mass_writeback simWorld1 sqrtQ simCards none c8r c8v 0 0).1
      (by decide),
   (c8_mass_writeback simWorld1 sqrtQ simCards none c8r c8v 0 0).2
      simBody1 c8upd rfl (by decide)⟩

/-- Witness for `c10_missing_steps`: the concrete world with `steps` absent
from its config. -/
theorem c10_missing_steps_witness :
    configSteps simWorld0 = 0 ∧
    (simulate simWorld0 sqrtQ simCards none).2 = .error .nameErr ∧
    (simulate simWorld0 sqrtQ simCards none).1 = simWorld0 :=
  c10_missing_steps simWorld0 sqrtQ simCards none (by decide) (by decide)

/-! ## Claim C5 — the composed velocity-Verlet step -/

section C5Lemmas

variable {K : Type} [LinearOrderedField K]

lemma v3_add_zero (v : V3 K) : v + (0 : V3 K) = v := by
  show V3.mk (v.x + 0) (v.y + 0) (v.z + 0) = v
  rw [add_zero, add_zero, add_zero]

lemma v3_zero_add (v : V3 K) : (0 : V3 K) + v = v := by
  show V3.mk (0 + v.x) (0 + v.y) (0 + v.z) = v
  rw [zero_add, zero_add, zero_add]

lemma v3_add_assoc (a b c : V3 K) : a + b + c = a + (b + c) := by
  show V3.mk (a.x + b.x + c.x) (a.y + b.y + c.y) (a.z + b.z + c.z) =
    V3.mk (a.x + (b.x + c.x)) (a.y + (b.y + c.y)) (a.z + (b.z + c.z))
  rw [add_assoc, add_assoc, add_assoc]

lemma exMap_ok {ε α β : Type} (f : α → β) (x : α) :
    (Except.ok x : Except ε α).map f = .ok (f x) := rfl

lemma exMap_error {ε α β : Type} (f : α → β) (e : ε) :
    (Except.error e : Except ε α).map f = .error e := rfl

lemma exBind_ok {ε α β : Type} (x : α) (f : α → Except ε β) :
    (Except.ok x : Except ε α) >>= f = f x := rfl

lemma exBind_error {ε α β : Type} (e : ε) (f : α → Except ε β) :
    (Except.error e : Except ε α) >>= f = .error e := rfl

/-- Accumulating the external fold from `acc` is adding `acc` pointwise to
the fold from zero. -/
lemma extAccelsAux (sqrt : K → K) (lawid : String)
    (cards : List (String × LawCardM)) (idx : String → Option Nat) (n : Nat)
    (m : Nat → K) (vNow : Nat → V3 K) :
    ∀ (ds : List DynamicM) (acc : Nat → V3 K),
      ds.foldlM
        (fun acc d =>
          (externalContrib sqrt lawid cards idx n m d vNow).map
            (fun c => fun i => acc i + c i)) acc =
      (externalAccels sqrt lawid cards idx n m ds vNow).map
        (fun g => fun i => acc i + g i) := by
  intro ds
  induction ds with
  | nil =>
    intro acc
    simp only [List.foldlM_nil, externalAccels, exMap_ok]
    refine congrArg Except.ok (funext fun i => ?_)
    exact (v3_add_zero (acc i)).symm
  | cons d ds ih =>
    intro acc
    simp only [List.foldlM_cons, externalAccels] at ih ⊢
    cases hc : externalContrib sqrt lawid cards idx n m d vNow with
    | error e => simp only [hc, exMap_error, exBind_error]
    | ok cn =>
      simp only [hc, exMap_ok, exBind_ok]
      rw [ih (fun i => acc i + cn i), ih (fun i => 0 + cn i)]
      cases hx : ds.foldlM
          (fun acc d =>
            (externalContrib sqrt lawid cards idx n m d vNow).map
              (fun c => fun i => acc i + c i)) (fun _ => (0 : V3 K)) with
      | error e => simp only [hx, exMap_error]
      | ok g =>
        simp only [hx, exMap_ok]
        refine congrArg Except.ok (funext fun i => ?_)
        rw [v3_zero_add, v3_add_assoc]

end C5Lemmas

/-- **C5.**  Each composed step computes `a₁ = a_grav(r) + a_ext(v)`,
`v½ = v + (dt/2)·a₁`, `r' = r + dt·v½`, `a₂ = a_grav(r') + a_ext(v½)`,
`v' = v½ + (dt/2)·a₂` — external accelerations at the opening half-kick use
the prior velocity and at the closing half-kick the half-step velocity, the
gravity term is the first summand of each half-kick, and the external sum
accumulates dynamics in world order (head contribution first, then the
rest). -/
theorem c5_composed_step {K : Type} [LinearOrderedField K] (c : SimCtx K)
    (st : SimState K) (aE aE2 cd : Nat → V3 K) (d : DynamicM)
    (ds : List DynamicM) (vNow : Nat → V3 K) :
    (externalAccels c.sqrt c.law.id c.cards c.idx c.n c.m0 c.dyns st.v =
        .ok aE →
     externalAccels c.sqrt c.law.id c.cards c.idx c.n c.m0 c.dyns
        (fun i => st.v i + (c.dt / 2) •
          (accelerations c.cfg c.sqrt c.law c.n st.r st.m i + aE i)) =
        .ok aE2 →
     stepOnceE c st = .ok
       ⟨st.t + c.dt,
        fun i => st.r i + c.dt • (st.v i + (c.dt / 2) •
          (accelerations c.cfg c.sqrt c.law c.n st.r st.m i + aE i)),
        fun i =>
          (st.v i + (c.dt / 2) •
            (accelerations c.cfg c.sqrt c.law c.n st.r st.m i + aE i)) +
          (c.dt / 2) •
            (accelerations c.cfg c.sqrt c.law c.n
              (fun j => st.r j + c.dt • (st.v j + (c.dt / 2) •
                (accelerations c.cfg c.sqrt c.law c.n st.r st.m j + aE j)))
              st.m i + aE2 i),
        st.m⟩) ∧
    (externalContrib c.sqrt c.law.id c.cards c.idx c.n c.m0 d vNow = .ok cd →
     externalAccels c.sqrt c.law.id c.cards c.idx c.n c.m0 (d :: ds) vNow =
       (externalAccels c.sqrt c.law.id c.cards c.idx c.n c.m0 ds vNow).map
         (fun rest => fun i => cd i + rest i)) := by
  constructor
  · intro hE hE2
    rw [show c.dt / 2 = (1 : K) / 2 * c.dt from by ring] at hE2 ⊢
    unfold stepOnceE
    rw [hE]
    dsimp only
    rw [hE2]
  · intro hcd
    show (d :: ds).foldlM
        (fun acc d =>
          (externalContrib c.sqrt c.law.id c.cards c.idx c.n c.m0 d vNow).map
            (fun cn => fun i => acc i + cn i)) (fun _ => (0 : V3 K)) = _
    rw [List.foldlM_cons, hcd]
    simp only [exMap_ok, exBind_ok]
    rw [extAccelsAux c.sqrt c.law.id c.cards c.idx c.n c.m0 vNow ds
      (fun i => 0 + cd i)]
    cases hx : externalAccels c.sqrt c.law.id c.cards c.idx c.n c.m0 ds vNow with
    | error e => simp only [hx, exMap_error]
    | ok g =>
      simp only [hx, exMap_ok]
      refine congrArg Except.ok (funext fun i => ?_)
      rw [v3_zero_add]

/-- Witness for `c5_composed_step`: the one-body gravity fixture, whose
external accelerations are identically zero, instantiates both conjuncts. -/
theorem c5_composed_step_witness :
    stepOnceE c5Ctx c5St = .ok
      ⟨c5St.t + c5Ctx.dt,
       fun i => c5St.r i + c5Ctx.dt • (c5St.v i + (c5Ctx.dt / 2) •
         (accelerations c5Ctx.cfg c5Ctx.sqrt c5Ctx.law c5Ctx.n c5St.r c5St.m i
           + c5zsum i)),
       fun i =>
         (c5St.v i + (c5Ctx.dt / 2) •
           (accelerations c5Ctx.cfg c5Ctx.sqrt c5Ctx.law c5Ctx.n c5St.r
             c5St.m i + c5zsum i)) +
         (c5Ctx.dt / 2) •
           (accelerations c5Ctx.cfg c5Ctx.sqrt c5Ctx.law c5Ctx.n
             (fun j => c5St.r j + c5Ctx.dt • (c5St.v j + (c5Ctx.dt / 2) •
               (accelerations c5Ctx.cfg c5Ctx.sqrt c5Ctx.law c5Ctx.n c5St.r
                 c5St.m j + c5zsum j)))
             c5St.m i + c5zsum i),
       c5St.m⟩ ∧
    externalAccels c5Ctx.sqrt c5Ctx.law.id c5Ctx.cards c5Ctx.idx c5Ctx.n
        c5Ctx.m0 (simDyn :: []) c5St.v =
      (externalAccels c5Ctx.sqrt c5Ctx.law.id c5Ctx.cards c5Ctx.idx c5Ctx.n
          c5Ctx.m0 [] c5St.v).map
        (fun rest => fun i => c5zf i + rest i) :=
  ⟨(c5_composed_step c5Ctx c5St c5zsum c5zsum c5zf simDyn [] c5St.v).1
     rfl rfl,
   (c5_composed_step c5Ctx c5St c5zsum c5zsum c5zf simDyn [] c5St.v).2 rfl⟩

section AuditLemmas

variable {K : Type} [LinearOrderedField K]

lemma contribOk (c : SimCtx K) (d : DynamicM) (vNow : Nat → V3 K)
    (hp : paramsOk c = true) (hd : d ∈ c.dyns) :
    (externalContrib c.sqrt c.law.id c.cards c.idx c.n c.m0 d vNow).isOk
      = true := by
  unfold paramsOk at hp
  have h := (List.all_eq_true.mp hp) d hd
  unfold externalContrib
  split
  · rfl
  · next hne =>
    rw [if_neg hne] at h
    cases hc : cardByRef c.cards d.ref with
    | none => rfl
    | some card =>
      rw [hc] at h
      dsimp only at h ⊢
      split
      · next hlin =>
        rw [if_pos hlin] at h
        cases hg : lookupParam card "gamma" with
        | none => rw [hg] at h; simp at h
        | some g0 => rfl
      · next hnl =>
        rw [if_neg hnl] at h
        split
        · next hq =>
          rw [if_pos hq] at h
          cases hg : lookupParam card "Cq" with
          | none => rw [hg] at h; simp at h
          | some c0 => rfl
        · rfl

lemma extFoldOk (c : SimCtx K) (vNow : Nat → V3 K) (hp : paramsOk c = true) :
    ∀ (ds : List DynamicM), (∀ d ∈ ds, d ∈ c.dyns) → ∀ (acc : Nat → V3 K),
      (ds.foldlM
        (fun acc d =>
          (externalContrib c.sqrt c.law.id c.cards c.idx c.n c.m0 d vNow).map
            (fun cn => fun i => acc i + cn i)) acc).isOk = true := by
  intro ds
  induction ds with
  | nil => intro _ acc; rfl
  | cons d ds ih =>
    intro hsub acc
    rw [List.foldlM_cons]
    cases hc : externalContrib c.sqrt c.law.id c.cards c.idx c.n c.m0 d vNow with
    | error e =>
      have hok := contribOk c d vNow hp (hsub d (List.mem_cons_self d ds))
      rw [hc] at hok
      exact absurd hok (by simp [Except.isOk, Except.toBool])
    | ok f =>
      simp only [hc, exMap_ok, exBind_ok]
      exact ih (fun d hd => hsub d (List.mem_cons_of_mem _ hd)) _

lemma extAccelsOk (c : SimCtx K) (vNow : Nat → V3 K) (hp : paramsOk c = true) :
    (externalAccels c.sqrt c.law.id c.cards c.idx c.n c.m0 c.dyns vNow).isOk
      = true := by
  unfold externalAccels
  exact extFoldOk c vNow hp c.dyns (fun d hd => hd) (fun _ => 0)

lemma stepOnceE_isOk (c : SimCtx K) (st : SimState K) (hp : paramsOk c = true) :
    (stepOnceE c st).isOk = true := by
  unfold stepOnceE
  cases h1 : externalAccels c.sqrt c.law.id c.cards c.idx c.n c.m0 c.dyns
      st.v with
  | error e =>
    have hok := extAccelsOk c st.v hp
    rw [h1] at hok
    exact absurd hok (by simp [Except.isOk, Except.toBool])
  | ok aE =>
    dsimp only
    cases h2 : externalAccels c.sqrt c.law.id c.cards c.idx c.n c.m0 c.dyns
        (fun i => st.v i + ((1 : K) / 2 * c.dt) •
          (accelerations c.cfg c.sqrt c.law c.n st.r st.m i + aE i)) with
    | error e =>
      have hok := extAccelsOk c (fun i => st.v i + ((1 : K) / 2 * c.dt) •
        (accelerations c.cfg c.sqrt c.law c.n st.r st.m i + aE i)) hp
      rw [h2] at hok
      exact absurd hok (by simp [Except.isOk, Except.toBool])
    | ok aE2 => rfl

lemma stepPure_ok (c : SimCtx K) (st : SimState K) (hp : paramsOk c = true) :
    stepOnceE c st = .ok (stepPure c st) := by
  have hok := stepOnceE_isOk c st hp
  unfold stepPure
  cases h : stepOnceE c st with
  | error e => rw [h] at hok; exact absurd hok (by simp [Except.isOk, Except.toBool])
  | ok s => rfl

lemma simLoop_eq (c : SimCtx K) (st0 : SimState K) (hp : paramsOk c = true) :
    ∀ (fuel i : Nat) (last : Option Nat),
      simLoop c fuel i ((stepPure c)^[i] st0) last =
        .ok ((stepPure c)^[runLenGo c st0 fuel i] st0,
             if fuel = 0 then last else some (runLenGo c st0 fuel i)) := by
  intro fuel
  induction fuel with
  | zero => intro i last; rfl
  | succ fuel ih =>
    intro i last
    have hit : stepPure c ((stepPure c)^[i] st0) = (stepPure c)^[i + 1] st0 :=
      (Function.iterate_succ_apply' (stepPure c) i st0).symm
    have hrl : runLenGo c st0 (fuel + 1) i =
        if hitAt c st0 (i + 1) then i + 1 else runLenGo c st0 fuel (i + 1) := rfl
    have hhit : hitAt c st0 (i + 1) =
        (auditDue c.steps (i + 1) &&
          grossCheck c.sqrt c.budE c.budP c.budL c.inv0
            (auditInvariants c.sqrt c.G c.n c.m0
              ((stepPure c)^[i + 1] st0).r ((stepPure c)^[i + 1] st0).v)) := rfl
    unfold simLoop
    rw [stepPure_ok c ((stepPure c)^[i] st0) hp]
    dsimp only
    rw [hit, hrl]
    by_cases ha : auditDue c.steps (i + 1) = true
    · by_cases hg : grossCheck c.sqrt c.budE c.budP c.budL c.inv0
          (auditInvariants c.sqrt c.G c.n c.m0
            ((stepPure c)^[i + 1] st0).r ((stepPure c)^[i + 1] st0).v) = true
      · have hh : hitAt c st0 (i + 1) = true := by rw [hhit, ha, hg]; rfl
        rw [if_pos ha, if_pos hg, if_pos hh]
        simp only [Nat.succ_ne_zero, if_false]
      · have hh : ¬ hitAt c st0 (i + 1) = true := by
          rw [hhit, ha]
          simp only [Bool.true_and]
          exact hg
        rw [if_pos ha, if_neg hg, if_neg hh, ih (i + 1) (some (i + 1))]
        by_cases hf : fuel = 0
        · subst hf
          simp only [if_pos rfl, Nat.succ_ne_zero, if_false]
          rfl
        · rw [if_neg hf]
          simp only [Nat.succ_ne_zero, if_false]
    · have hh : ¬ hitAt c st0 (i + 1) = true := by
        rw [hhit]
        simp only [Bool.and_eq_true, not_and]
        intro hc
        exact absurd hc ha
      rw [if_neg ha, if_neg hh, ih (i + 1) (some (i + 1))]
      by_cases hf : fuel = 0
      · subst hf
        simp only [if_pos rfl, Nat.succ_ne_zero, if_false]
        rfl
      · rw [if_neg hf]
        simp only [Nat.succ_ne_zero, if_false]

lemma runLenGo_ge (c : SimCtx K) (st0 : SimState K) :
    ∀ (fuel i : Nat), i ≤ runLenGo c st0 fuel i := by
  intro fuel
  induction fuel with
  | zero => intro i; exact Nat.le_refl i
  | succ fuel ih =>
    intro i
    show i ≤ (if hitAt c st0 (i + 1) then i + 1 else runLenGo c st0 fuel (i + 1))
    split
    · omega
    · exact Nat.le_trans (by omega) (ih (i + 1))

lemma runLenGo_ge1 (c : SimCtx K) (st0 : SimState K) (fuel i : Nat)
    (hf : 1 ≤ fuel) : i + 1 ≤ runLenGo c st0 fuel i := by
  cases fuel with
  | zero => omega
  | succ fuel =>
    show i + 1 ≤ (if hitAt c st0 (i + 1) then i + 1 else runLenGo c st0 fuel (i + 1))
    split
    · omega
    · exact runLenGo_ge c st0 fuel (i + 1)

lemma runLenGo_le (c : SimCtx K) (st0 : SimState K) :
    ∀ (fuel i : Nat), runLenGo c st0 fuel i ≤ i + fuel := by
  intro fuel
  induction fuel with
  | zero => intro i; exact Nat.le_refl i
  | succ fuel ih =>
    intro i
    show (if hitAt c st0 (i + 1) then i + 1 else runLenGo c st0 fuel (i + 1)) ≤
      i + (fuel + 1)
    split
    · omega
    · exact Nat.le_trans (ih (i + 1)) (by omega)

lemma runLenGo_hit (c : SimCtx K) (st0 : SimState K) :
    ∀ (fuel i : Nat), runLenGo c st0 fuel i < i + fuel →
      hitAt c st0 (runLenGo c st0 fuel i) = true := by
  intro fuel
  induction fuel with
  | zero => intro i h; rw [show runLenGo c st0 0 i = i from rfl] at h; omega
  | succ fuel ih =>
    intro i h
    have hrl : runLenGo c st0 (fuel + 1) i =
        if hitAt c st0 (i + 1) then i + 1 else runLenGo c st0 fuel (i + 1) := rfl
    rw [hrl] at h ⊢
    by_cases hh : hitAt c st0 (i + 1) = true
    · rw [if_pos hh]
      exact hh
    · rw [if_neg hh] at h ⊢
      exact ih (i + 1) (by omega)

lemma runLenGo_noEarlier (c : SimCtx K) (st0 : SimState K) :
    ∀ (fuel i k : Nat), i < k → k < runLenGo c st0 fuel i →
      hitAt c st0 k = false := by
  intro fuel
  induction fuel with
  | zero =>
    intro i k h1 h2
    rw [show runLenGo c st0 0 i = i from rfl] at h2
    omega
  | succ fuel ih =>
    intro i k h1 h2
    have hrl : runLenGo c st0 (fuel + 1) i =
        if hitAt c st0 (i + 1) then i + 1 else runLenGo c st0 fuel (i + 1) := rfl
    rw [hrl] at h2
    by_cases hh : hitAt c st0 (i + 1) = true
    · rw [if_pos hh] at h2
      omega
    · rw [if_neg hh] at h2
      by_cases hk : k = i + 1
      · subst hk
        exact Bool.eq_false_iff.mpr hh
      · exact ih (i + 1) k (by omega) h2

lemma runLenGo_full (c : SimCtx K) (st0 : SimState K) :
    ∀ (fuel i : Nat), (∀ j, i < j → j ≤ i + fuel → hitAt c st0 j = false) →
      runLenGo c st0 fuel i = i + fuel := by
  intro fuel
  induction fuel with
  | zero => intro i _; rfl
  | succ fuel ih =>
    intro i hclean
    have hh : hitAt c st0 (i + 1) = false := hclean (i + 1) (by omega) (by omega)
    have hrl : runLenGo c st0 (fuel + 1) i =
        if hitAt c st0 (i + 1) then i + 1 else runLenGo c st0 fuel (i + 1) := rfl
    rw [hrl, if_neg (by simp [hh]),
      ih (i + 1) (fun j hj1 hj2 => hclean j (by omega) (by omega))]
    omega

end AuditLemmas

/-- **C1.**  Modelled from the spec for the solver surface absent from
`src/`: alongside the public `accelerations` operation the solver keeps
`step(state, card, dt)` computing the standalone gravity-only Verlet update
(raising `KeyError` when the card lacks `G`); `accelerations` is a pure
function of the positions and masses of the state (two states agreeing on
`r` and `m` yield identical acceleration arrays); and the composed driver's
step — which reaches gravity only through `accelerations` — is well-defined
whenever every dynamic's card parameters resolve. -/
theorem c1_solver_accelerations {K : Type} [LinearOrderedField K]
    (cfg : SolverCfg K) (sq : K → K) (card : LawCardM) (n : Nat)
    (st st2 : SimState K) (dt : K) (g : ℚ) (c : SimCtx K) :
    (lookupParam card "G" = some g →
      solverStep cfg sq n st card dt = .ok
        ⟨st.t + dt,
         (takeStep sq ((g : ℚ) : K) n st.m st.r st.v dt (cfg.softening ^ 2)
           (shouldVectorize cfg n)).1,
         (takeStep sq ((g : ℚ) : K) n st.m st.r st.v dt (cfg.softening ^ 2)
           (shouldVectorize cfg n)).2,
         st.m⟩) ∧
    (st2.r = st.r → st2.m = st.m →
      accelerations cfg sq card n st2.r st2.m =
        accelerations cfg sq card n st.r st.m) ∧
    (paramsOk c = true → (stepOnceE c st).isOk = true) := by
  refine ⟨?_, ?_, ?_⟩
  · intro hg
    unfold solverStep
    rw [hg]
  · intro hr hm
    rw [hr, hm]
  · intro hp
    exact stepOnceE_isOk c st hp

/-- Witness for `c1_solver_accelerations`: the gravity fixture card carries
`G`, its standalone step is the Verlet update, the acceleration array is
unchanged under a state sharing `r` and `m`, and the composed step of the
one-body context succeeds. -/
theorem c1_solver_accelerations_witness :
    (solverStep defaultSolverCfg sqrtQ 1 c5St simCardG 1 = .ok
      ⟨c5St.t + 1,
       (takeStep sqrtQ (((0 : ℚ) : ℚ) : ℚ) 1 c5St.m c5St.r c5St.v 1
         ((defaultSolverCfg : SolverCfg ℚ).softening ^ 2)
         (shouldVectorize (defaultSolverCfg : SolverCfg ℚ) 1)).1,
       (takeStep sqrtQ (((0 : ℚ) : ℚ) : ℚ) 1 c5St.m c5St.r c5St.v 1
         ((defaultSolverCfg : SolverCfg ℚ).softening ^ 2)
         (shouldVectorize (defaultSolverCfg : SolverCfg ℚ) 1)).2,
       c5St.m⟩) ∧
    accelerations defaultSolverCfg sqrtQ simCardG 1 c5St.r c5St.m =
      accelerations defaultSolverCfg sqrtQ simCardG 1 c5St.r c5St.m ∧
    (stepOnceE c5Ctx c5St).isOk = true :=
  ⟨(c1_solver_accelerations defaultSolverCfg sqrtQ simCardG 1 c5St c5St 1 0
      c5Ctx).1 rfl,
   (c1_solver_accelerations defaultSolverCfg sqrtQ simCardG 1 c5St c5St 1 0
      c5Ctx).2.1 rfl rfl,
   (c1_solver_accelerations defaultSolverCfg sqrtQ simCardG 1 c5St c5St 1 0
      c5Ctx).2.2 rfl⟩

/-- **C4.**  For a run whose setup succeeds, whose dynamics' parameters all
resolve and whose configured `steps` is at least 1: audits fall due exactly
at every 100th and at the final step; the drift baseline is the step-zero
invariant audit (never a previous audit); an abort can happen only at an
audit point; the run returns with the executed iteration count
`runLength`, which lies between 1 and `steps`; it stops short of `steps`
only at a gross audit hit, no earlier audit point being gross; a run all of
whose audit points are clean executes exactly `steps` iterations; and an
audit whose enabled drifts are each at most ten times their budget never
aborts. -/
theorem c4_audit_cadence {K : Type} [LinearOrderedField K] (w : WorldM K)
    (sq : K → K) (cards : List (String × LawCardM))
    (reg : Option (List (String × SolverCfg K))) (c : SimCtx K)
    (st0 : SimState K) (k : Nat) (inv : InvMap K)
    (hprep : simPrep w sq cards (reg.getD defaultRegistry) = .ok (c, st0))
    (hp : paramsOk c = true) (hs : 1 ≤ c.steps) :
    auditDue c.steps k = ((k % 100 == 0) || (k == c.steps)) ∧
    c.inv0 = auditInvariants sq c.G c.n c.m0 st0.r st0.v ∧
    (hitAt c st0 k = true → auditDue c.steps k = true) ∧
    stepsOf (simulate w sq cards reg) = runLength c st0 ∧
    (simulate w sq cards reg).2.isOk = true ∧
    1 ≤ runLength c st0 ∧ runLength c st0 ≤ c.steps ∧
    (runLength c st0 < c.steps → hitAt c st0 (runLength c st0) = true) ∧
    (0 < k → k < runLength c st0 → hitAt c st0 k = false) ∧
    ((List.range c.steps).all (fun j => ! hitAt c st0 (j + 1)) = true →
      runLength c st0 = c.steps) ∧
    ((c.budE < 1 → relDriftScalar inv.energy c.inv0.energy ≤ 10 * c.budE) →
     (c.budP < 1 →
       relDriftVec c.sqrt inv.linearMomentum c.inv0.linearMomentum ≤
         10 * c.budP) →
     (c.budL < 1 →
       relDriftVec c.sqrt inv.angularMomentum c.inv0.angularMomentum ≤
         10 * c.budL) →
     grossCheck c.sqrt c.budE c.budP c.budL c.inv0 inv = false) := by
  have hloop := simLoop_eq c st0 hp c.steps 0 none
  rw [show (stepPure c)^[0] st0 = st0 from rfl] at hloop
  rw [if_neg (show ¬ c.steps = 0 by omega)] at hloop
  have hsim : stepsOf (simulate w sq cards reg) = runLength c st0 ∧
      (simulate w sq cards reg).2.isOk = true := by
    unfold stepsOf simulate
    rw [hprep]
    dsimp only
    rw [hloop]
    exact ⟨rfl, rfl⟩
  refine ⟨rfl, (simPrep_spec w sq cards _ c st0 hprep).2.2.2.2.2.2.2.2.2.2.2,
    ?_, hsim.1, hsim.2, runLenGo_ge1 c st0 c.steps 0 hs,
    (by have := runLenGo_le c st0 c.steps 0; unfold runLength; omega), ?_, ?_,
    ?_, ?_⟩
  · intro hk
    unfold hitAt at hk
    simp only [Bool.and_eq_true] at hk
    exact hk.1
  · intro hlt
    unfold runLength at hlt ⊢
    exact runLenGo_hit c st0 c.steps 0 (by omega)
  · intro h1 h2
    exact runLenGo_noEarlier c st0 c.steps 0 k h1 h2
  · intro hclean
    have hall : ∀ j, 0 < j → j ≤ c.steps → hitAt c st0 j = false := by
      intro j hj1 hj2
      have hm := (List.all_eq_true.mp hclean) (j - 1)
        (List.mem_range.mpr (by omega))
      rw [show j - 1 + 1 = j from by omega] at hm
      simpa using hm
    have := runLenGo_full c st0 c.steps 0
      (fun j hj1 hj2 => hall j hj1 (by omega))
    unfold runLength
    omega
  · intro hE hP hL
    unfold grossCheck
    dsimp only
    have hE' : ¬ (c.budE < 1 ∧
        (if c.budE < 1 then relDriftScalar inv.energy c.inv0.energy else 0) >
          10 * c.budE) := by
      rintro ⟨hb, hgt⟩
      rw [if_pos hb] at hgt
      exact absurd hgt (not_lt.mpr (hE hb))
    have hP' : ¬ (c.budP < 1 ∧
        (if c.budP < 1 then
          relDriftVec c.sqrt inv.linearMomentum c.inv0.linearMomentum else 0) >
          10 * c.budP) := by
      rintro ⟨hb, hgt⟩
      rw [if_pos hb] at hgt
      exact absurd hgt (not_lt.mpr (hP hb))
    have hL' : ¬ (c.budL < 1 ∧
        (if c.budL < 1 then
          relDriftVec c.sqrt inv.angularMomentum c.inv0.angularMomentum else 0) >
          10 * c.budL) := by
      rintro ⟨hb, hgt⟩
      rw [if_pos hb] at hgt
      exact absurd hgt (not_lt.mpr (hL hb))
    simp [hE', hP', hL']

/-- Witness for `c4_audit_cadence`: the one-body one-step gravity context
produced by `simPrep` on the fixture world instantiates every conclusion at
audit step 1 and the step-zero invariants. -/
theorem c4_audit_cadence_witness :
    auditDue c4Ctx.steps 1 = ((1 % 100 == 0) || (1 == c4Ctx.steps)) ∧
    c4Ctx.inv0 =
      auditInvariants sqrtQ c4Ctx.G c4Ctx.n c4Ctx.m0 c4St0.r c4St0.v ∧
    (hitAt c4Ctx c4St0 1 = true → auditDue c4Ctx.steps 1 = true) ∧
    stepsOf (simulate simWorld1 sqrtQ simCards none) =
      runLength c4Ctx c4St0 ∧
    (simulate simWorld1 sqrtQ simCards none).2.isOk = true ∧
    1 ≤ runLength c4Ctx c4St0 ∧ runLength c4Ctx c4St0 ≤ c4Ctx.steps ∧
    (runLength c4Ctx c4St0 < c4Ctx.steps →
      hitAt c4Ctx c4St0 (runLength c4Ctx c4St0) = true) ∧
    (0 < 1 → 1 < runLength c4Ctx c4St0 → hitAt c4Ctx c4St0 1 = false) ∧
    ((List.range c4Ctx.steps).all (fun j => ! hitAt c4Ctx c4St0 (j + 1)) =
        true → runLength c4Ctx c4St0 = c4Ctx.steps) ∧
    ((c4Ctx.budE < 1 →
       relDriftScalar c4Ctx.inv0.energy c4Ctx.inv0.energy ≤
         10 * c4Ctx.budE) →
     (c4Ctx.budP < 1 →
       relDriftVec c4Ctx.sqrt c4Ctx.inv0.linearMomentum
         c4Ctx.inv0.linearMomentum ≤ 10 * c4Ctx.budP) →
     (c4Ctx.budL < 1 →
       relDriftVec c4Ctx.sqrt c4Ctx.inv0.angularMomentum
         c4Ctx.inv0.angularMomentum ≤ 10 * c4Ctx.budL) →
     grossCheck c4Ctx.sqrt c4Ctx.budE c4Ctx.budP c4Ctx.budL c4Ctx.inv0
       c4Ctx.inv0 = false) :=
  c4_audit_cadence simWorld1 sqrtQ simCards none c4Ctx c4St0 1 c4Ctx.inv0
    rfl rfl (by decide)

end RuleGraph
